import Mathlib

/-!
# SuperTux `WeakBlock` (src/object/weak_block.cpp)

A shallow embedding of the weak block's state machine: the collision callbacks
`collision_bullet` and `collision`, the per-frame `update`, `startBurning` and
the chain-reaction scan `spreadHit`.

Conventions of the embedding.

* The sector's `get_objects_by_type<WeakBlock>()` listing is a `List WeakBlock`;
  an object's identity (its address, `this`) is its index in that listing.
* A `float` value is the rational it represents. The one `float` operation the
  state machine depends on, the subtraction in `spreadHit`, rounds its exact
  result to the nearest `float` (`round_f32`); the colour channels, which no
  decision depends on, are kept exact.
* The calls to `SoundManager::current()->play` are recorded in a log kept next
  to the listing.
* `sprite->animation_done()` and the draws from `gameRandom` are inputs of
  `update`.
-/

namespace Supertux

/-! ## Data model -/

/-- The `State` enum of `WeakBlock`. -/
inductive State where
  | STATE_NORMAL
  | STATE_BURNING
  | STATE_DISINTEGRATING
  deriving DecidableEq, Repr

/-- Modelled from the spec: the `CollisionGroup` enum is declared in a header that
is not part of this file. The two enumerators the code names are kept (the solid
group and the group "excluded from collision"); every other enumerator is
`COLGROUP_OTHER k`. -/
inductive CollisionGroup where
  | COLGROUP_STATIC
  | COLGROUP_DISABLED
  | COLGROUP_OTHER (k : Nat)
  deriving DecidableEq, Repr

/-- Modelled from the spec: the `HitResponse` enum is declared in a header that is
not part of this file. `FORCE_MOVE` is the one response the code returns ("do
not move me"); every other enumerator is `OTHER_RESPONSE k`. -/
inductive HitResponse where
  | FORCE_MOVE
  | OTHER_RESPONSE (k : Nat)
  deriving DecidableEq, Repr

/-- Modelled from the spec: the `BonusType` enum is declared in a header that is
not part of this file. `FIRE_BONUS` is the "incendiary" kind the code compares
with; every other projectile kind is `OTHER_BONUS k`. -/
inductive BonusType where
  | FIRE_BONUS
  | OTHER_BONUS (k : Nat)
  deriving DecidableEq, Repr

/-- A point of the plane (`Vector`), with exact rational coordinates. -/
structure Vector where
  x : ℚ
  y : ℚ
  deriving DecidableEq

/-- An RGB colour (`Color(r, g, b)`), with exact rational channels. -/
structure Color where
  red : ℚ
  green : ℚ
  blue : ℚ
  deriving DecidableEq

/-- Modelled from the spec: the `Sprite` class is not part of this file. Kept are
the sprite file it was created from and the animation action last set with
`set_action(name, loops)`. -/
structure Sprite where
  file : String
  action : String
  loops : Int
  deriving DecidableEq

/-- Modelled from the spec: the call `sprite->set_action(name, loops)` sets the
current animation action. -/
def Sprite.set_action (sp : Sprite) (name : String) (loops : Int) : Sprite :=
  { sp with action := name, loops := loops }

/-- Modelled from the spec: the light sprite of a block (the ambient glow), with
its file, whether `set_blend(Blend::ADD)` was called on it, and the colour last
given to `set_color`. -/
structure LightSprite where
  file : String
  blend_add : Bool
  color : Color
  deriving DecidableEq

/-- The sprite file of the flammable variant. -/
def strawbox : String := "images/objects/weak_block/strawbox.sprite"

/-- The sprite file of the meltable variant. -/
def meltbox : String := "images/objects/weak_block/meltbox.sprite"

/-- The light sprite `update` creates when the block starts to disintegrate. -/
def lightmap_tiny : String := "images/objects/lightmap_light/lightmap_light-tiny.sprite"

/-- One `WeakBlock` object: the members of the class and the inherited members the
code reads or writes (`sprite_name`, `sprite`, `bbox.p1`, the collision group and
the flag `remove_me()` raises). -/
structure WeakBlock where
  sprite_name : String
  sprite : Sprite
  bbox_p1 : Vector
  group : CollisionGroup
  removed : Bool
  state : State
  linked : Bool
  lightsprite : LightSprite
  deriving DecidableEq

/-- The accessor `get_pos()`: the anchor corner of the bounding box. -/
def WeakBlock.get_pos (wb : WeakBlock) : Vector := wb.bbox_p1

/-- The simulated area as the block sees it: the listing returned by
`get_objects_by_type<WeakBlock>()` and the log of the sounds played so far. -/
structure Sector where
  weak_blocks : List WeakBlock
  played : List String
  deriving DecidableEq

/-- The object at index `i` of the listing, when there is one. -/
def Sector.block (s : Sector) (i : Nat) : Option WeakBlock := s.weak_blocks[i]?

/-- Store `wb` as the object at index `i`. -/
def Sector.set_block (s : Sector) (i : Nat) (wb : WeakBlock) : Sector :=
  { s with weak_blocks := s.weak_blocks.set i wb }

/-- Modelled from the spec: the call `SoundManager::current()->play(name)`,
recorded in the log of played sounds. -/
def Sector.play (s : Sector) (name : String) : Sector :=
  { s with played := s.played ++ [name] }

/-- Modelled from the spec: the description of a contact (`CollisionHit`), which
the block only passes on to `Bullet::ricochet`. -/
structure CollisionHit where
  left : Bool
  right : Bool
  top : Bool
  bottom : Bool
  crush : Bool
  deriving DecidableEq

/-- Modelled from the spec: the `Bullet` class is not part of this file. Kept are
its type (`get_type()`), the flag raised by `remove_me()` (the projectile is
consumed), and the hits it was asked to `ricochet` off, latest last. -/
structure Bullet where
  type : BonusType
  removed : Bool
  ricochets : List CollisionHit
  deriving DecidableEq

/-- The call `bullet.remove_me()`. -/
def Bullet.remove_me (b : Bullet) : Bullet := { b with removed := true }

/-- The call `bullet.ricochet(*this, hit)`. -/
def Bullet.ricochet (b : Bullet) (hit : CollisionHit) : Bullet :=
  { b with ricochets := b.ricochets ++ [hit] }

/-- Modelled from the spec: the `BadGuy` class is not part of this file. Kept is
the number of times its `ignite()` capability was invoked. -/
structure BadGuy where
  ignite_calls : Nat
  deriving DecidableEq

/-- The call `badguy->ignite()`. -/
def BadGuy.ignite (g : BadGuy) : BadGuy := { g with ignite_calls := g.ignite_calls + 1 }

/-- The other object of a contact, by the dynamic type the code casts to. -/
inductive GameObject where
  | bullet (b : Bullet)
  | explosion
  | badguy (g : BadGuy)
  | plain
  deriving DecidableEq

/-- Modelled from the spec: the random source is external and produces a value on
demand. These are the values one `update` draws from `gameRandom`: `rand(10)`
and the two `randf(20.0f)` of the red and the green channel. -/
structure Draws where
  rand10 : Nat
  randf_red : ℚ
  randf_green : ℚ

/-! ## Single-precision arithmetic -/

/-- The integer nearest to `t`, the even one of the two when `t` lies halfway
between two integers. -/
def round_ties_even (t : ℚ) : ℤ :=
  if t - ⌊t⌋ < 1 / 2 then ⌊t⌋
  else if 1 / 2 < t - ⌊t⌋ then ⌊t⌋ + 1
  else if ⌊t⌋ % 2 = 0 then ⌊t⌋
  else ⌊t⌋ + 1

/-- The `float` (IEEE 754 binary32) result of an operation whose exact result is
`x`, in the default rounding mode: `x` is rounded to the nearest multiple of
`2 ^ (e - 23)`, ties to even, where `2 ^ e ≤ |x| < 2 ^ (e + 1)` and `e` is at
least `-126` (below that the spacing stays `2 ^ (-149)`). A result too large
for a `float`, which the machine replaces by an infinity, is left as the
rounded rational; both are above every finite bound it is compared with. -/
def round_f32 (x : ℚ) : ℚ :=
  if x = 0 then 0
  else
    round_ties_even (x / 2 ^ (max (Int.log 2 |x|) (-126) - 23))
      * 2 ^ (max (Int.log 2 |x|) (-126) - 23)

/-! ## Operations -/

/-- The method `WeakBlock::startBurning`, called on the object at index `this`. -/
def startBurning (this : Nat) (s : Sector) : Sector :=
  match s.block this with
  | none => s
  | some wb =>
    if wb.state ≠ State.STATE_NORMAL then s
    else
      let s1 := s.set_block this
        { wb with state := State.STATE_BURNING, sprite := wb.sprite.set_action "burning" 1 }
      if wb.sprite_name = meltbox then s1.play "sounds/sizzle.ogg"
      else if wb.sprite_name = strawbox then s1.play "sounds/fire.ogg"
      else s1

/-- The body of the loop of `WeakBlock::spreadHit` for the listed object `j`. -/
def spreadHit_visit (this : Nat) (j : Nat) (s : Sector) : Sector :=
  match s.block this, s.block j with
  | some me, some wb =>
    if j ≠ this ∧ wb.state = State.STATE_NORMAL then
      let dx := |round_f32 (wb.get_pos.x - me.bbox_p1.x)|
      let dy := |round_f32 (wb.get_pos.y - me.bbox_p1.y)|
      if dx ≤ 65 / 2 ∧ dy ≤ 65 / 2 then startBurning j s else s
    else s
  | _, _ => s

/-- The method `WeakBlock::spreadHit`, called on the object at index `this`. -/
def spreadHit (this : Nat) (s : Sector) : Sector :=
  match s.block this with
  | none => s
  | some me =>
    if me.linked then
      (List.range s.weak_blocks.length).foldl (fun acc j => spreadHit_visit this j acc) s
    else s

/-- The method `WeakBlock::collision_bullet`, called on the object at index `this`. -/
def collision_bullet (this : Nat) (bullet : Bullet) (hit : CollisionHit) (s : Sector) :
    HitResponse × Sector × Bullet :=
  match s.block this with
  | none => (HitResponse.FORCE_MOVE, s, bullet)
  | some wb =>
    match wb.state with
    | State.STATE_NORMAL =>
      if bullet.type = BonusType.FIRE_BONUS then
        (HitResponse.FORCE_MOVE, startBurning this s, bullet.remove_me)
      else
        (HitResponse.FORCE_MOVE, s, bullet.ricochet hit)
    | State.STATE_BURNING => (HitResponse.FORCE_MOVE, s, bullet)
    | State.STATE_DISINTEGRATING => (HitResponse.FORCE_MOVE, s, bullet)

/-- The method `WeakBlock::collision`, called on the object at index `this`. -/
def collision (this : Nat) (other : GameObject) (hit : CollisionHit) (s : Sector) :
    HitResponse × Sector × GameObject :=
  match s.block this with
  | none => (HitResponse.FORCE_MOVE, s, other)
  | some wb =>
    match wb.state with
    | State.STATE_NORMAL =>
      match other with
      | GameObject.bullet b =>
        let r := collision_bullet this b hit s
        (r.1, r.2.1, GameObject.bullet r.2.2)
      | GameObject.explosion => (HitResponse.FORCE_MOVE, startBurning this s, other)
      | _ => (HitResponse.FORCE_MOVE, s, other)
    | State.STATE_BURNING =>
      if wb.sprite_name ≠ strawbox then (HitResponse.FORCE_MOVE, s, other)
      else
        match other with
        | GameObject.badguy g => (HitResponse.FORCE_MOVE, s, GameObject.badguy g.ignite)
        | _ => (HitResponse.FORCE_MOVE, s, other)
    | State.STATE_DISINTEGRATING => (HitResponse.FORCE_MOVE, s, other)

/-- The flicker of the burn light in `WeakBlock::update`. -/
def flicker (wb : WeakBlock) (rnd : Draws) : WeakBlock :=
  if wb.linked then
    if rnd.rand10 ≥ 7 then
      { wb with lightsprite := { wb.lightsprite with
          color := ⟨2 / 10 + rnd.randf_red / 100, 1 / 10 + rnd.randf_green / 100, 1 / 10⟩ } }
    else
      { wb with lightsprite := { wb.lightsprite with color := ⟨3 / 10, 2 / 10, 1 / 10⟩ } }
  else wb

/-- The statements of `WeakBlock::update` that follow the call of `spreadHit` when
the burn animation is done. -/
def disable (wb : WeakBlock) : WeakBlock :=
  { wb with group := CollisionGroup.COLGROUP_DISABLED,
            lightsprite := ⟨lightmap_tiny, true, ⟨3 / 10, 2 / 10, 1 / 10⟩⟩ }

/-- The method `WeakBlock::update`, called on the object at index `this`;
`animation_done` is what `sprite->animation_done()` returns in this step. -/
def update (this : Nat) (rnd : Draws) (animation_done : Bool) (s : Sector) : Sector :=
  match s.block this with
  | none => s
  | some wb =>
    match wb.state with
    | State.STATE_NORMAL => s
    | State.STATE_BURNING =>
      let wb1 := flicker wb rnd
      if animation_done then
        let s1 := s.set_block this
          { wb1 with state := State.STATE_DISINTEGRATING,
                     sprite := wb1.sprite.set_action "disintegrating" 1 }
        let s2 := spreadHit this s1
        match s2.block this with
        | none => s2
        | some wb2 => s2.set_block this (disable wb2)
      else s.set_block this wb1
    | State.STATE_DISINTEGRATING =>
      if animation_done then s.set_block this { wb with removed := true }
      else s

/-- One call of a `WeakBlock` method on the object at index `this`, with the
arguments of the call. -/
inductive Op where
  | startBurning (this : Nat)
  | spreadHit (this : Nat)
  | collision_bullet (this : Nat) (bullet : Bullet) (hit : CollisionHit)
  | collision (this : Nat) (other : GameObject) (hit : CollisionHit)
  | update (this : Nat) (rnd : Draws) (animation_done : Bool)

/-- The sector after the call. -/
def Op.apply : Op → Sector → Sector
  | Op.startBurning this, s => Supertux.startBurning this s
  | Op.spreadHit this, s => Supertux.spreadHit this s
  | Op.collision_bullet this bullet hit, s => (Supertux.collision_bullet this bullet hit s).2.1
  | Op.collision this other hit, s => (Supertux.collision this other hit s).2.1
  | Op.update this rnd animation_done, s => Supertux.update this rnd animation_done s

/-- The object a call is made on. -/
def Op.target : Op → Nat
  | Op.startBurning this => this
  | Op.spreadHit this => this
  | Op.collision_bullet this _ _ => this
  | Op.collision this _ _ => this
  | Op.update this _ _ => this

/-- The sector after a sequence of calls, first call first. -/
def run (ops : List Op) (s : Sector) : Sector :=
  ops.foldl (fun acc op => op.apply acc) s

/-- The same object `other` touching the block at index `this` once per hit of
the list: `collision` is called for each hit in turn. -/
def collide_all (this : Nat) : List CollisionHit → Sector → GameObject → Sector × GameObject
  | [], s, other => (s, other)
  | hit :: hits, s, other =>
    collide_all this hits (collision this other hit s).2.1 (collision this other hit s).2.2

/-! ## Construction -/

/-- Modelled from the spec: the level configuration (`ReaderMapping`) a block is
built from, reduced to the options the constructors read. An option is `none`
when the configuration does not contain it, and `lisp.get(name, v)` then leaves
`v` as it was and returns `false`. -/
structure ReaderMapping where
  x : Option ℚ
  y : Option ℚ
  sprite : Option String
  linked : Option Bool

/-- Modelled from the spec: the base-class constructor
`MovingSprite(lisp, sprite_name, layer, collision_group)` is not part of this
file. It places the anchor corner at the configured position, takes the
configured sprite file (the visual asset path) or else the default one given
by the caller, creates the sprite from it and enters the collision group
given by the caller. -/
structure MovingSprite where
  sprite_name : String
  sprite : Sprite
  bbox_p1 : Vector
  group : CollisionGroup

/-- Modelled from the spec: the sprite `SpriteManager::current()->create(file)`
returns, with no action set on it yet. -/
def SpriteManager_create (file : String) : Sprite := ⟨file, "", -1⟩

/-- Modelled from the spec: see `MovingSprite`. -/
def MovingSprite.construct (lisp : ReaderMapping) (default_sprite : String)
    (collision_group : CollisionGroup) : MovingSprite :=
  { sprite_name := lisp.sprite.getD default_sprite
    sprite := SpriteManager_create (lisp.sprite.getD default_sprite)
    bbox_p1 := ⟨lisp.x.getD 0, lisp.y.getD 0⟩
    group := collision_group }

/-- The constructor `WeakBlock::WeakBlock(lisp)`. `light` is the light sprite
`SpriteManager::current()->create` returns for the small light map; the second
component lists the sounds given to `SoundManager::current()->preload`. -/
def WeakBlock.construct (lisp : ReaderMapping) (light : LightSprite) :
    WeakBlock × List String :=
  let base := MovingSprite.construct lisp strawbox CollisionGroup.COLGROUP_STATIC
  let wb0 : WeakBlock :=
    { sprite_name := base.sprite_name
      sprite := base.sprite.set_action "normal" (-1)
      bbox_p1 := base.bbox_p1
      group := base.group
      removed := false
      state := State.STATE_NORMAL
      linked := true
      lightsprite := light }
  let wb1 : WeakBlock :=
    match lisp.linked with
    | some l =>
      if l = false then
        { wb0 with linked := l, sprite_name := meltbox,
                   sprite := (SpriteManager_create meltbox).set_action "normal" (-1) }
      else { wb0 with linked := l }
    | none => wb0
  if wb1.sprite_name = strawbox then
    ({ wb1 with lightsprite := { wb1.lightsprite with
          blend_add := true, color := ⟨3 / 10, 2 / 10, 1 / 10⟩ } },
      ["sounds/fire.ogg"])
  else if wb1.sprite_name = meltbox then (wb1, ["sounds/sizzle.ogg"])
  else (wb1, [])

/-- The sector right after its blocks were constructed from the given
configurations: nothing has been played yet. -/
def constructed (cfgs : List (ReaderMapping × LightSprite)) : Sector :=
  ⟨cfgs.map (fun c => (WeakBlock.construct c.1 c.2).1), []⟩

/-! ## Auxiliary definitions used to state the properties -/

/-- The block `startBurning` leaves behind when it fires: state `STATE_BURNING`
and sprite action `burning`, played once. -/
def burn (wb : WeakBlock) : WeakBlock :=
  { wb with state := State.STATE_BURNING, sprite := wb.sprite.set_action "burning" 1 }

/-- The proximity test of `spreadHit`: both anchor-corner differences, as the
`float` subtraction computes them, are at most 32.5. -/
def near (me wb : WeakBlock) : Prop :=
  |round_f32 (wb.get_pos.x - me.bbox_p1.x)| ≤ 65 / 2
    ∧ |round_f32 (wb.get_pos.y - me.bbox_p1.y)| ≤ 65 / 2

instance (me wb : WeakBlock) : Decidable (near me wb) := by
  unfold near; exact inferInstance

/-- The lifecycle rank of a block: `NORMAL < BURNING < DISINTEGRATING < removed`. -/
def rank (wb : WeakBlock) : Nat :=
  if wb.removed = true then 3
  else
    match wb.state with
    | State.STATE_NORMAL => 0
    | State.STATE_BURNING => 1
    | State.STATE_DISINTEGRATING => 2

/-- The block `update` stores before it calls `spreadHit`. -/
def disintegrate (wb : WeakBlock) (rnd : Draws) : WeakBlock :=
  { flicker wb rnd with state := State.STATE_DISINTEGRATING,
                        sprite := (flicker wb rnd).sprite.set_action "disintegrating" 1 }

/-- The ways one call of a method changes one block of the listing: not at all,
by `startBurning`, by the flicker or the end of the burn animation in `update`,
or by the removal in `update`. -/
def Step (b b' : WeakBlock) : Prop :=
  b' = b
  ∨ (b.state = State.STATE_NORMAL ∧ b' = burn b)
  ∨ (b.state = State.STATE_BURNING
      ∧ ∃ rnd : Draws, b' = flicker b rnd ∨ b' = disable (disintegrate b rnd))
  ∨ (b.state = State.STATE_DISINTEGRATING ∧ b' = { b with removed := true })

/-- Whether a call delivers a fire bullet to the block at index `i`, through
`collision_bullet` or through `collision`. -/
def fire_contact (i : Nat) : Op → Bool
  | Op.collision_bullet this bullet _ =>
    decide (this = i ∧ bullet.type = BonusType.FIRE_BONUS)
  | Op.collision this (GameObject.bullet bullet) _ =>
    decide (this = i ∧ bullet.type = BonusType.FIRE_BONUS)
  | _ => false

/-- The state of the block at index `i`, when there is one. -/
def state_of (s : Sector) (i : Nat) : Option State := (s.block i).map (fun wb => wb.state)

/-- The number of calls of the sequence across which the block at index `i` goes
from `STATE_NORMAL` to `STATE_BURNING`. -/
def ignitions (i : Nat) : List Op → Sector → Nat
  | [], _ => 0
  | op :: ops, s =>
    (if state_of s i = some State.STATE_NORMAL
        ∧ state_of (op.apply s) i = some State.STATE_BURNING then 1 else 0)
      + ignitions i ops (op.apply s)

/-- The sounds `startBurning` plays for a block with sprite file `name`. -/
def ignition_sounds (name : String) : List String :=
  if name = meltbox then ["sounds/sizzle.ogg"]
  else if name = strawbox then ["sounds/fire.ogg"]
  else []

/-- What holds of every block between two calls, once the sector was
constructed: a removed block is DISINTEGRATING, a NORMAL or BURNING block is in
the solid group, and a DISINTEGRATING block is in the disabled group. -/
def Consistent (b : WeakBlock) : Prop :=
  (b.removed = true → b.state = State.STATE_DISINTEGRATING)
    ∧ (b.state = State.STATE_NORMAL ∨ b.state = State.STATE_BURNING →
        b.group = CollisionGroup.COLGROUP_STATIC)
    ∧ (b.state = State.STATE_DISINTEGRATING → b.group = CollisionGroup.COLGROUP_DISABLED)

/-- A block with the colour of its light sprite blanked out: everything about
the block except that colour. -/
def erase_color (wb : WeakBlock) : WeakBlock :=
  { wb with lightsprite := { wb.lightsprite with color := ⟨0, 0, 0⟩ } }

/-- A sector with the light colour of every block blanked out. -/
def Sector.erase_colors (s : Sector) : Sector :=
  ⟨s.weak_blocks.map erase_color, s.played⟩

/-! ## Sample sectors -/

/-- The light sprite the constructor creates. -/
def lightmap_small : String := "images/objects/lightmap_light/lightmap_light-small.sprite"

/-- A block in state `STATE_NORMAL` with the given sprite file and `linked` flag,
anchored at `(x, y)`, solid and not removed. -/
def fresh (name : String) (linked : Bool) (x y : ℚ) : WeakBlock :=
  { sprite_name := name
    sprite := ⟨name, "normal", -1⟩
    bbox_p1 := ⟨x, y⟩
    group := CollisionGroup.COLGROUP_STATIC
    removed := false
    state := State.STATE_NORMAL
    linked := linked
    lightsprite := ⟨lightmap_small, true, ⟨3 / 10, 2 / 10, 1 / 10⟩⟩ }

/-- Some draws of the random generator. -/
def draws0 : Draws := ⟨8, 5, 15⟩

/-- Two linked strawbox blocks, the second 32 units to the right of the first. -/
def two_straw : Sector := ⟨[fresh strawbox true 0 0, fresh strawbox true 32 0], []⟩

/-- A linked block at the origin with three NORMAL siblings: an unlinked meltbox
at offset (32.5, 32.5), a strawbox at offset (33, 0), and a strawbox at
(65, 32.5), which is in range of the meltbox only. -/
def quad : Sector :=
  ⟨[fresh strawbox true 0 0, fresh meltbox false (65 / 2) (65 / 2),
    fresh strawbox true 33 0, fresh strawbox true 65 (65 / 2)], []⟩

/-- An unlinked meltbox that is burning, with a NORMAL linked strawbox 32 units to
its right. -/
def melt_pair : Sector := ⟨[burn (fresh meltbox false 0 0), fresh strawbox true 32 0], []⟩

/-- A sprite file that is neither the strawbox nor the meltbox one. -/
def custom_sprite : String := "images/objects/weak_block/custom.sprite"

/-- One linked NORMAL block whose configured sprite is `custom_sprite`. -/
def custom_single : Sector := ⟨[fresh custom_sprite true 0 0], []⟩

/-- One linked strawbox block that is burning. -/
def straw_burning : Sector := ⟨[burn (fresh strawbox true 0 0)], ["sounds/fire.ogg"]⟩

/-- An ice bullet in flight. -/
def ice_bullet : Bullet := ⟨BonusType.OTHER_BONUS 0, false, []⟩

/-- One linked strawbox block that has burnt down and is disintegrating. -/
def straw_disintegrating : Sector :=
  ⟨[disable (disintegrate (burn (fresh strawbox true 0 0)) draws0)], ["sounds/fire.ogg"]⟩

/-- A configuration with no option set. -/
def empty_config : ReaderMapping := ⟨none, none, none, none⟩

/-- A light sprite as the sprite manager may hand it out. -/
def plain_light : LightSprite := ⟨lightmap_small, false, ⟨1, 1, 1⟩⟩

/-- One linked block with sprite `custom_sprite` that is burning. -/
def custom_burning : Sector := ⟨[burn (fresh custom_sprite true 0 0)], []⟩

/-- A configuration that names `custom_sprite` as the sprite and sets nothing
else. -/
def custom_config : ReaderMapping := ⟨none, none, some custom_sprite, none⟩

/-- Draws of the random generator that pick the fixed warm colour. -/
def draws1 : Draws := ⟨3, 0, 0⟩

/-- The listing of `quad` with its first two blocks exchanged. -/
def quad_swapped : Sector :=
  ⟨[fresh meltbox false (65 / 2) (65 / 2), fresh strawbox true 0 0,
    fresh strawbox true 33 0, fresh strawbox true 65 (65 / 2)], []⟩

/-- The renumbering that exchanges the indices 0 and 1. -/
def swap01 (k : Nat) : Nat := if k = 0 then 1 else if k = 1 then 0 else k

/-- A configuration that names the strawbox sprite and sets `linked` to false. -/
def unlinked_straw_config : ReaderMapping := ⟨some 64, some 96, some strawbox, some false⟩

/-- A linked block anchored at `(-2^-30, 0)` with a NORMAL sibling anchored at
`(32.5, 0)`; all four coordinates are `float` values. -/
def edge_pair : Sector :=
  ⟨[fresh strawbox true (-(1 / 2 ^ 30)) 0, fresh strawbox true (65 / 2) 0], []⟩

/-- A configuration that names `custom_sprite` as the sprite and sets `linked` to
false. -/
def custom_unlinked_config : ReaderMapping := ⟨none, none, some custom_sprite, some false⟩

/-- A fire bullet in flight. -/
def fire_bullet : Bullet := ⟨BonusType.FIRE_BONUS, false, []⟩

/-- A contact from the left. -/
def hit_left : CollisionHit := ⟨true, false, false, false, false⟩

/-! ## Facts about single-precision rounding -/

theorem round_ties_even_le (t : ℚ) (M : ℤ) (h : t ≤ M) : round_ties_even t ≤ M := by
  have hf : ⌊t⌋ ≤ M := by
    have hq : (⌊t⌋ : ℚ) ≤ M := (Int.floor_le t).trans h
    exact_mod_cast hq
  have hup : 0 < t - ⌊t⌋ → ⌊t⌋ + 1 ≤ M := by
    intro hpos
    have hlt : (⌊t⌋ : ℚ) < M := by linarith
    have : ⌊t⌋ < M := by exact_mod_cast hlt
    omega
  unfold round_ties_even
  split_ifs with h1 h2 h3
  · exact hf
  · exact hup (by linarith)
  · exact hf
  · apply hup
    have : (1 : ℚ) / 2 ≤ t - ⌊t⌋ := not_lt.mp h1
    linarith

theorem le_round_ties_even (t : ℚ) (M : ℤ) (h : (M : ℚ) ≤ t) : M ≤ round_ties_even t := by
  have hf : M ≤ ⌊t⌋ := Int.le_floor.mpr h
  unfold round_ties_even
  split_ifs <;> omega

theorem round_ties_even_intCast (n : ℤ) : round_ties_even (n : ℚ) = n := by
  unfold round_ties_even
  simp

theorem log_two_eq (r : ℚ) (e : ℤ) (h1 : (2 : ℚ) ^ e ≤ r) (h2 : r < (2 : ℚ) ^ (e + 1)) :
    Int.log 2 r = e := by
  have hr : 0 < r := lt_of_lt_of_le (by positivity) h1
  have a : e ≤ Int.log 2 r :=
    (Int.zpow_le_iff_le_log (by norm_num) hr).mp (by exact_mod_cast h1)
  have b : Int.log 2 r < e + 1 :=
    (Int.lt_zpow_iff_log_lt (by norm_num) hr).mp (by exact_mod_cast h2)
  omega

/-- A value of the form `n * 2 ^ (e - 23)` in the binade of `2 ^ e` is a `float`:
rounding leaves it as it is. -/
theorem round_f32_exact (x : ℚ) (e n : ℤ) (h1 : (2 : ℚ) ^ e ≤ |x|)
    (h2 : |x| < (2 : ℚ) ^ (e + 1)) (he : -126 ≤ e) (hn : x = n * 2 ^ (e - 23)) :
    round_f32 x = x := by
  have hx : x ≠ 0 := by
    intro h0
    rw [h0, abs_zero] at h1
    have : (0 : ℚ) < 2 ^ e := by positivity
    linarith
  have hlog := log_two_eq |x| e h1 h2
  unfold round_f32
  rw [if_neg hx, hlog, max_eq_left he]
  have hq : (2 : ℚ) ^ (e - 23) ≠ 0 := by positivity
  have hdiv : x / 2 ^ (e - 23) = (n : ℚ) := by
    rw [hn]; field_simp
  rw [hdiv, round_ties_even_intCast, ← hn]

/-- Rounding never carries a difference of at most 32.5 above 32.5, which is
itself a `float`. -/
theorem round_f32_abs_le (x : ℚ) (h : |x| ≤ 65 / 2) : |round_f32 x| ≤ 65 / 2 := by
  by_cases hx : x = 0
  · simp only [round_f32, hx, if_true, abs_zero]
    norm_num
  · have hpos : 0 < |x| := abs_pos.mpr hx
    have hlog : Int.log 2 |x| < 6 := by
      apply (Int.lt_zpow_iff_log_lt (by norm_num) hpos).mp
      have h64 : |x| < 64 := lt_of_le_of_lt h (by norm_num)
      have e64 : ((2 : ℕ) : ℚ) ^ (6 : ℤ) = 64 := by norm_num
      rw [e64]
      exact h64
    obtain ⟨e, he⟩ : ∃ e, e = max (Int.log 2 |x|) (-126) := ⟨_, rfl⟩
    have he5 : e ≤ 5 := by
      rw [he]
      exact max_le (by omega) (by norm_num)
    have hq : (0 : ℚ) < 2 ^ (e - 23) := by positivity
    obtain ⟨k, hk⟩ : ∃ k : ℕ, (k : ℤ) = 22 - e :=
      ⟨(22 - e).toNat, Int.toNat_of_nonneg (by omega)⟩
    have hM : (((65 * 2 ^ k : ℤ)) : ℚ) * 2 ^ (e - 23) = 65 / 2 := by
      push_cast
      rw [mul_assoc, ← zpow_natCast, ← zpow_add₀ (by norm_num : (2 : ℚ) ≠ 0), hk]
      have hsum : (22 - e + (e - 23) : ℤ) = -1 := by ring
      rw [hsum]
      norm_num
    have hle := abs_le.mp h
    have h1 : x / 2 ^ (e - 23) ≤ ((65 * 2 ^ k : ℤ) : ℚ) := by
      rw [div_le_iff₀ hq, hM]
      exact hle.2
    have h2 : ((-(65 * 2 ^ k) : ℤ) : ℚ) ≤ x / 2 ^ (e - 23) := by
      rw [le_div_iff₀ hq, Int.cast_neg, neg_mul, hM]
      exact hle.1
    have r1 := round_ties_even_le _ _ h1
    have r2 := le_round_ties_even _ _ h2
    unfold round_f32
    rw [if_neg hx, ← he, abs_mul, abs_of_pos hq, ← hM]
    apply mul_le_mul_of_nonneg_right _ hq.le
    rw [abs_le]
    constructor
    · have hc : ((-(65 * 2 ^ k) : ℤ) : ℚ) ≤ (round_ties_even (x / 2 ^ (e - 23)) : ℚ) := by
        exact_mod_cast r2
      simpa using hc
    · exact_mod_cast r1

theorem round_f32_33 : round_f32 33 = 33 := by
  apply round_f32_exact 33 5 (33 * 2 ^ 18) <;> norm_num

theorem round_f32_65 : round_f32 65 = 65 := by
  apply round_f32_exact 65 6 (65 * 2 ^ 17) <;> norm_num

/-- The exact difference `32.5 + 2 ^ (-30)` is not a `float`; the subtraction
returns `32.5`. -/
theorem round_f32_just_above : round_f32 (65 / 2 + 1 / 2 ^ 30) = 65 / 2 := by
  have hlog : Int.log 2 |(65 / 2 + 1 / 2 ^ 30 : ℚ)| = 5 := by
    apply log_two_eq <;> norm_num [abs_of_pos]
  unfold round_f32
  rw [if_neg (by norm_num), hlog]
  have hr : round_ties_even ((65 / 2 + 1 / 2 ^ 30) / 2 ^ (max (5 : ℤ) (-126) - 23))
      = 65 * 2 ^ 17 := by
    have hf : ⌊((65 / 2 + 1 / 2 ^ 30) / 2 ^ (max (5 : ℤ) (-126) - 23) : ℚ)⌋
        = 65 * 2 ^ 17 := by
      rw [Int.floor_eq_iff]
      norm_num
    unfold round_ties_even
    rw [hf]
    norm_num
  rw [hr]
  norm_num

/-! ## Basic facts about the listing -/

theorem block_set_block_self (s : Sector) (i : Nat) (wb wb0 : WeakBlock)
    (h : s.block i = some wb0) : (s.set_block i wb).block i = some wb := by
  have hlt : i < s.weak_blocks.length := by
    by_contra hc
    have hn : s.block i = none := List.getElem?_eq_none (Nat.le_of_not_lt hc)
    rw [hn] at h
    cases h
  simp [Sector.block, Sector.set_block, List.getElem?_set_self hlt]

theorem block_set_block_ne (s : Sector) (i j : Nat) (wb : WeakBlock) (h : i ≠ j) :
    (s.set_block i wb).block j = s.block j := by
  simp [Sector.block, Sector.set_block, List.getElem?_set_ne h]

theorem block_play (s : Sector) (name : String) (j : Nat) :
    (s.play name).block j = s.block j := rfl

theorem set_block_none (s : Sector) (i : Nat) (wb : WeakBlock) (h : s.block i = none) :
    s.set_block i wb = s := by
  have hle : s.weak_blocks.length ≤ i := by
    by_contra hc
    have hlt : i < s.weak_blocks.length := Nat.lt_of_not_le hc
    have : s.block i = some (s.weak_blocks[i]) := List.getElem?_eq_getElem hlt
    rw [this] at h
    cases h
  cases s with
  | mk bs pl =>
    simp only [Sector.set_block]
    congr 1
    exact List.set_eq_of_length_le hle

/-! ## `startBurning` -/

theorem startBurning_none (s : Sector) (i : Nat) (h : s.block i = none) :
    startBurning i s = s := by
  simp [startBurning, h]

theorem startBurning_not_normal (s : Sector) (i : Nat) (wb : WeakBlock)
    (h : s.block i = some wb) (hs : wb.state ≠ State.STATE_NORMAL) :
    startBurning i s = s := by
  simp [startBurning, h, hs]

theorem startBurning_block_self (s : Sector) (i : Nat) (wb : WeakBlock)
    (h : s.block i = some wb) :
    (startBurning i s).block i
      = some (if wb.state = State.STATE_NORMAL then burn wb else wb) := by
  by_cases hs : wb.state = State.STATE_NORMAL
  · simp only [startBurning, h, hs, ne_eq, not_true_eq_false, if_false, if_true]
    split
    · rw [block_play, block_set_block_self s i _ wb h]; rfl
    · split
      · rw [block_play, block_set_block_self s i _ wb h]; rfl
      · rw [block_set_block_self s i _ wb h]; rfl
  · rw [startBurning_not_normal s i wb h hs, h, if_neg hs]

theorem startBurning_block_ne (s : Sector) (i j : Nat) (h : i ≠ j) :
    (startBurning i s).block j = s.block j := by
  unfold startBurning
  cases hb : s.block i with
  | none => rfl
  | some wb =>
    simp only
    split
    · rfl
    · split
      · rw [block_play, block_set_block_ne s i j _ h]
      · split
        · rw [block_play, block_set_block_ne s i j _ h]
        · rw [block_set_block_ne s i j _ h]

/-! ## `spreadHit` -/

theorem near_burn (me wb : WeakBlock) : near me (burn wb) ↔ near me wb := Iff.rfl

/-- Two blocks whose exact anchor-corner differences are at most 32.5 pass the
proximity test. -/
theorem near_of_exact (me wb : WeakBlock) (hx : |wb.bbox_p1.x - me.bbox_p1.x| ≤ 65 / 2)
    (hy : |wb.bbox_p1.y - me.bbox_p1.y| ≤ 65 / 2) : near me wb :=
  ⟨round_f32_abs_le _ hx, round_f32_abs_le _ hy⟩

theorem spreadHit_visit_block (this k j : Nat) (s : Sector) (me wb : WeakBlock)
    (hme : s.block this = some me) (hj : s.block j = some wb) :
    (spreadHit_visit this k s).block j
      = some (if j = k ∧ j ≠ this ∧ wb.state = State.STATE_NORMAL ∧ near me wb
          then burn wb else wb) := by
  unfold spreadHit_visit
  rw [hme]
  cases hk : s.block k with
  | none =>
    have hne : j ≠ k := by
      intro e
      rw [e, hk] at hj
      cases hj
    simp [hne, hj]
  | some wk =>
    simp only
    by_cases hjk : j = k
    · subst hjk
      rw [hj] at hk
      cases hk
      by_cases c1 : j ≠ this ∧ wb.state = State.STATE_NORMAL
      · rw [if_pos c1]
        by_cases c2 : near me wb
        · have c2' : |round_f32 (wb.get_pos.x - me.bbox_p1.x)| ≤ 65 / 2
              ∧ |round_f32 (wb.get_pos.y - me.bbox_p1.y)| ≤ 65 / 2 := c2
          rw [if_pos c2', startBurning_block_self s j wb hj, if_pos c1.2,
            if_pos ⟨rfl, c1.1, c1.2, c2⟩]
        · have c2' : ¬ (|round_f32 (wb.get_pos.x - me.bbox_p1.x)| ≤ 65 / 2
              ∧ |round_f32 (wb.get_pos.y - me.bbox_p1.y)| ≤ 65 / 2) := c2
          rw [if_neg c2', hj, if_neg (fun h => c2 h.2.2.2)]
      · rw [if_neg c1, hj, if_neg (fun h => c1 ⟨h.2.1, h.2.2.1⟩)]
    · have e1 : ¬ (j = k ∧ j ≠ this ∧ wb.state = State.STATE_NORMAL ∧ near me wb) :=
        fun h => hjk h.1
      rw [if_neg e1]
      have hkj : k ≠ j := fun e => hjk e.symm
      split
      · split
        · rw [startBurning_block_ne s k j hkj, hj]
        · exact hj
      · exact hj

theorem spreadHit_fold_block (this : Nat) (js : List Nat) :
    ∀ (s : Sector) (me : WeakBlock) (j : Nat) (wb : WeakBlock),
      s.block this = some me → s.block j = some wb →
      (js.foldl (fun acc k => spreadHit_visit this k acc) s).block j
        = some (if j ∈ js ∧ j ≠ this ∧ wb.state = State.STATE_NORMAL ∧ near me wb
            then burn wb else wb) := by
  induction js with
  | nil =>
    intro s me j wb _ hj
    simp [hj]
  | cons k js ih =>
    intro s me j wb hme hj
    rw [List.foldl_cons]
    have hme1 : (spreadHit_visit this k s).block this = some me := by
      rw [spreadHit_visit_block this k this s me me hme hme]
      simp
    have hj1 := spreadHit_visit_block this k j s me wb hme hj
    rw [ih (spreadHit_visit this k s) me j _ hme1 hj1]
    by_cases c : j ≠ this ∧ wb.state = State.STATE_NORMAL ∧ near me wb
    · by_cases hjk : j = k
      · have e1 : (j = k ∧ j ≠ this ∧ wb.state = State.STATE_NORMAL ∧ near me wb) :=
          ⟨hjk, c⟩
        have e2 : (j ∈ k :: js ∧ j ≠ this ∧ wb.state = State.STATE_NORMAL ∧ near me wb) :=
          ⟨by simp [hjk], c⟩
        rw [if_pos e1, if_pos e2]
        simp [burn]
      · have e1 : ¬ (j = k ∧ j ≠ this ∧ wb.state = State.STATE_NORMAL ∧ near me wb) :=
          fun h => hjk h.1
        rw [if_neg e1]
        by_cases hmem : j ∈ js
        · rw [if_pos ⟨hmem, c⟩, if_pos ⟨by simp [hmem], c⟩]
        · have e3 : ¬ (j ∈ k :: js ∧ j ≠ this ∧ wb.state = State.STATE_NORMAL ∧ near me wb) := by
            intro h
            rcases List.mem_cons.mp h.1 with h1 | h1
            · exact hjk h1
            · exact hmem h1
          rw [if_neg (fun h => hmem h.1), if_neg e3]
    · have e1 : ¬ (j = k ∧ j ≠ this ∧ wb.state = State.STATE_NORMAL ∧ near me wb) :=
        fun h => c h.2
      rw [if_neg e1, if_neg (fun h => c h.2), if_neg (fun h => c h.2)]

/-- What `spreadHit` leaves at each index of the listing. -/
theorem spreadHit_block (this j : Nat) (s : Sector) (me wb : WeakBlock)
    (hme : s.block this = some me) (hj : s.block j = some wb) :
    (spreadHit this s).block j
      = some (if me.linked = true ∧ j ≠ this ∧ wb.state = State.STATE_NORMAL ∧ near me wb
          then burn wb else wb) := by
  unfold spreadHit
  rw [hme]
  simp only
  by_cases hl : me.linked = true
  · rw [if_pos hl, spreadHit_fold_block this _ s me j wb hme hj]
    have hlt : j < s.weak_blocks.length := by
      by_contra hc
      have hn : s.block j = none := List.getElem?_eq_none (Nat.le_of_not_lt hc)
      rw [hn] at hj
      cases hj
    have hmem : j ∈ List.range s.weak_blocks.length := List.mem_range.mpr hlt
    by_cases c : j ≠ this ∧ wb.state = State.STATE_NORMAL ∧ near me wb
    · rw [if_pos ⟨hmem, c⟩, if_pos ⟨hl, c⟩]
    · rw [if_neg (fun h => c h.2), if_neg (fun h => c h.2)]
  · rw [if_neg hl, hj, if_neg (fun h => hl h.1)]

theorem spreadHit_none (this : Nat) (s : Sector) (h : s.block this = none) :
    spreadHit this s = s := by
  simp [spreadHit, h]

theorem spreadHit_unlinked (this : Nat) (s : Sector) (me : WeakBlock)
    (h : s.block this = some me) (hl : me.linked = false) :
    spreadHit this s = s := by
  simp [spreadHit, h, hl]


/-! ## The collision callbacks -/

theorem collision_bullet_sector (this : Nat) (bullet : Bullet) (hit : CollisionHit)
    (s : Sector) :
    (collision_bullet this bullet hit s).2.1 = s
      ∨ (collision_bullet this bullet hit s).2.1 = startBurning this s := by
  cases hb : s.block this with
  | none => simp [collision_bullet, hb]
  | some wb =>
    cases hs : wb.state with
    | STATE_NORMAL =>
      by_cases hf : bullet.type = BonusType.FIRE_BONUS
      · simp [collision_bullet, hb, hs, hf]
      · simp [collision_bullet, hb, hs, hf]
    | STATE_BURNING => simp [collision_bullet, hb, hs]
    | STATE_DISINTEGRATING => simp [collision_bullet, hb, hs]

theorem collision_sector (this : Nat) (other : GameObject) (hit : CollisionHit)
    (s : Sector) :
    (collision this other hit s).2.1 = s
      ∨ (collision this other hit s).2.1 = startBurning this s := by
  cases hb : s.block this with
  | none => simp [collision, hb]
  | some wb =>
    cases hs : wb.state with
    | STATE_NORMAL =>
      cases other with
      | bullet b =>
        have := collision_bullet_sector this b hit s
        simpa [collision, hb, hs] using this
      | explosion => simp [collision, hb, hs]
      | badguy g => simp [collision, hb, hs]
      | plain => simp [collision, hb, hs]
    | STATE_BURNING =>
      by_cases hn : wb.sprite_name = strawbox
      · cases other <;> simp [collision, hb, hs, hn]
      · simp [collision, hb, hs, hn]
    | STATE_DISINTEGRATING => simp [collision, hb, hs]

/-! ## `update` -/

theorem flicker_linked (wb : WeakBlock) (rnd : Draws) : (flicker wb rnd).linked = wb.linked := by
  unfold flicker
  split
  · split <;> rfl
  · rfl

theorem flicker_bbox_p1 (wb : WeakBlock) (rnd : Draws) :
    (flicker wb rnd).bbox_p1 = wb.bbox_p1 := by
  unfold flicker
  split
  · split <;> rfl
  · rfl

theorem flicker_state (wb : WeakBlock) (rnd : Draws) : (flicker wb rnd).state = wb.state := by
  unfold flicker
  split
  · split <;> rfl
  · rfl

theorem flicker_removed (wb : WeakBlock) (rnd : Draws) :
    (flicker wb rnd).removed = wb.removed := by
  unfold flicker
  split
  · split <;> rfl
  · rfl

theorem flicker_group (wb : WeakBlock) (rnd : Draws) : (flicker wb rnd).group = wb.group := by
  unfold flicker
  split
  · split <;> rfl
  · rfl

theorem flicker_sprite (wb : WeakBlock) (rnd : Draws) :
    (flicker wb rnd).sprite = wb.sprite := by
  unfold flicker
  split
  · split <;> rfl
  · rfl

theorem flicker_sprite_name (wb : WeakBlock) (rnd : Draws) :
    (flicker wb rnd).sprite_name = wb.sprite_name := by
  unfold flicker
  split
  · split <;> rfl
  · rfl

theorem update_burning_done (this : Nat) (rnd : Draws) (s : Sector) (wb : WeakBlock)
    (h : s.block this = some wb) (hs : wb.state = State.STATE_BURNING) :
    update this rnd true s
      = (spreadHit this (s.set_block this (disintegrate wb rnd))).set_block this
          (disable (disintegrate wb rnd)) := by
  have h1 : (s.set_block this (disintegrate wb rnd)).block this
      = some (disintegrate wb rnd) := block_set_block_self s this _ wb h
  have h2 := spreadHit_block this this _ _ _ h1 h1
  have e : ¬ ((disintegrate wb rnd).linked = true ∧ this ≠ this
      ∧ (disintegrate wb rnd).state = State.STATE_NORMAL
      ∧ near (disintegrate wb rnd) (disintegrate wb rnd)) := fun c => c.2.1 rfl
  rw [if_neg e] at h2
  have h3 : update this rnd true s
      = (match (spreadHit this (s.set_block this (disintegrate wb rnd))).block this with
        | none => spreadHit this (s.set_block this (disintegrate wb rnd))
        | some wb2 => (spreadHit this (s.set_block this (disintegrate wb rnd))).set_block this
            (disable wb2)) := by
    simp only [update, h, hs, if_true]
    rfl
  rw [h3, h2]

theorem update_burning_not_done (this : Nat) (rnd : Draws) (s : Sector) (wb : WeakBlock)
    (h : s.block this = some wb) (hs : wb.state = State.STATE_BURNING) :
    update this rnd false s = s.set_block this (flicker wb rnd) := by
  simp [update, h, hs]

theorem update_normal (this : Nat) (rnd : Draws) (ad : Bool) (s : Sector) (wb : WeakBlock)
    (h : s.block this = some wb) (hs : wb.state = State.STATE_NORMAL) :
    update this rnd ad s = s := by
  simp [update, h, hs]

theorem update_disintegrating_done (this : Nat) (rnd : Draws) (s : Sector) (wb : WeakBlock)
    (h : s.block this = some wb) (hs : wb.state = State.STATE_DISINTEGRATING) :
    update this rnd true s = s.set_block this { wb with removed := true } := by
  simp [update, h, hs]

theorem update_disintegrating_not_done (this : Nat) (rnd : Draws) (s : Sector)
    (wb : WeakBlock) (h : s.block this = some wb)
    (hs : wb.state = State.STATE_DISINTEGRATING) :
    update this rnd false s = s := by
  simp [update, h, hs]

theorem update_none (this : Nat) (rnd : Draws) (ad : Bool) (s : Sector)
    (h : s.block this = none) : update this rnd ad s = s := by
  simp [update, h]

/-- What `update` leaves at the index of the object it is called on. -/
theorem update_block_self (this : Nat) (rnd : Draws) (ad : Bool) (s : Sector) (wb : WeakBlock)
    (h : s.block this = some wb) :
    (update this rnd ad s).block this
      = some (match wb.state with
          | State.STATE_NORMAL => wb
          | State.STATE_BURNING =>
            if ad = true then disable (disintegrate wb rnd) else flicker wb rnd
          | State.STATE_DISINTEGRATING =>
            if ad = true then { wb with removed := true } else wb) := by
  cases hs : wb.state with
  | STATE_NORMAL => rw [update_normal this rnd ad s wb h hs]; exact h
  | STATE_BURNING =>
    cases ad with
    | false =>
      rw [update_burning_not_done this rnd s wb h hs, block_set_block_self s this _ wb h]
      rfl
    | true =>
      rw [update_burning_done this rnd s wb h hs]
      have h1 : (s.set_block this (disintegrate wb rnd)).block this
          = some (disintegrate wb rnd) := block_set_block_self s this _ wb h
      have h2 := spreadHit_block this this _ _ _ h1 h1
      rw [block_set_block_self _ this _ _ h2]
      rfl
  | STATE_DISINTEGRATING =>
    cases ad with
    | false => rw [update_disintegrating_not_done this rnd s wb h hs]; exact h
    | true =>
      rw [update_disintegrating_done this rnd s wb h hs, block_set_block_self s this _ wb h]
      simp [hs]

/-- What `update` leaves at the other indices of the listing. -/
theorem update_block_ne (this j : Nat) (rnd : Draws) (ad : Bool) (s : Sector)
    (wb b : WeakBlock) (h : s.block this = some wb) (hj : s.block j = some b)
    (hne : j ≠ this) :
    (update this rnd ad s).block j
      = some (if wb.state = State.STATE_BURNING ∧ ad = true ∧ wb.linked = true
            ∧ b.state = State.STATE_NORMAL ∧ near wb b
          then burn b else b) := by
  have hne' : this ≠ j := fun e => hne e.symm
  cases hs : wb.state with
  | STATE_NORMAL =>
    rw [update_normal this rnd ad s wb h hs, hj]
    simp
  | STATE_BURNING =>
    cases ad with
    | false =>
      rw [update_burning_not_done this rnd s wb h hs, block_set_block_ne s this j _ hne', hj]
      simp
    | true =>
      rw [update_burning_done this rnd s wb h hs]
      have h1 : (s.set_block this (disintegrate wb rnd)).block this
          = some (disintegrate wb rnd) := block_set_block_self s this _ wb h
      have h1j : (s.set_block this (disintegrate wb rnd)).block j = some b := by
        rw [block_set_block_ne s this j _ hne', hj]
      have h3 := spreadHit_block this j _ _ _ h1 h1j
      rw [block_set_block_ne _ this j _ hne', h3]
      have hl : (disintegrate wb rnd).linked = wb.linked := flicker_linked wb rnd
      have hn : near (disintegrate wb rnd) b ↔ near wb b := by
        unfold near
        have : (disintegrate wb rnd).bbox_p1 = wb.bbox_p1 := flicker_bbox_p1 wb rnd
        rw [this]
      by_cases c : wb.linked = true ∧ b.state = State.STATE_NORMAL ∧ near wb b
      · rw [if_pos ⟨hl.trans c.1, hne, c.2.1, hn.mpr c.2.2⟩, if_pos ⟨rfl, rfl, c⟩]
      · have e1 : ¬ ((disintegrate wb rnd).linked = true ∧ j ≠ this
            ∧ b.state = State.STATE_NORMAL ∧ near (disintegrate wb rnd) b) :=
          fun k => c ⟨hl.symm.trans k.1, k.2.2.1, hn.mp k.2.2.2⟩
        have e2 : ¬ (State.STATE_BURNING = State.STATE_BURNING ∧ true = true
            ∧ wb.linked = true ∧ b.state = State.STATE_NORMAL ∧ near wb b) :=
          fun k => c k.2.2
        rw [if_neg e1, if_neg e2]
  | STATE_DISINTEGRATING =>
    cases ad with
    | false =>
      rw [update_disintegrating_not_done this rnd s wb h hs, hj]
      simp
    | true =>
      rw [update_disintegrating_done this rnd s wb h hs, block_set_block_ne s this j _ hne', hj]
      simp

/-! ## Every call changes a block by one step -/

theorem startBurning_step (i j : Nat) (s : Sector) (b : WeakBlock) (h : s.block j = some b) :
    ∃ b', (startBurning i s).block j = some b' ∧ Step b b' := by
  by_cases hij : i = j
  · subst hij
    rw [startBurning_block_self s i b h]
    by_cases hs : b.state = State.STATE_NORMAL
    · exact ⟨burn b, by rw [if_pos hs], Or.inr (Or.inl ⟨hs, rfl⟩)⟩
    · exact ⟨b, by rw [if_neg hs], Or.inl rfl⟩
  · rw [startBurning_block_ne s i j hij]
    exact ⟨b, h, Or.inl rfl⟩

theorem spreadHit_step (i j : Nat) (s : Sector) (b : WeakBlock) (h : s.block j = some b) :
    ∃ b', (spreadHit i s).block j = some b' ∧ Step b b' := by
  cases hi : s.block i with
  | none =>
    rw [spreadHit_none i s hi]
    exact ⟨b, h, Or.inl rfl⟩
  | some me =>
    rw [spreadHit_block i j s me b hi h]
    by_cases c : me.linked = true ∧ j ≠ i ∧ b.state = State.STATE_NORMAL ∧ near me b
    · exact ⟨burn b, by rw [if_pos c], Or.inr (Or.inl ⟨c.2.2.1, rfl⟩)⟩
    · exact ⟨b, by rw [if_neg c], Or.inl rfl⟩

theorem update_step (i j : Nat) (rnd : Draws) (ad : Bool) (s : Sector) (b : WeakBlock)
    (h : s.block j = some b) :
    ∃ b', (update i rnd ad s).block j = some b' ∧ Step b b' := by
  cases hi : s.block i with
  | none =>
    rw [update_none i rnd ad s hi]
    exact ⟨b, h, Or.inl rfl⟩
  | some wb =>
    by_cases hji : j = i
    · rw [hji] at h ⊢
      rw [update_block_self i rnd ad s b h]
      cases hs : b.state with
      | STATE_NORMAL => exact ⟨b, rfl, Or.inl rfl⟩
      | STATE_BURNING =>
        cases ad with
        | false => exact ⟨flicker b rnd, rfl, Or.inr (Or.inr (Or.inl ⟨hs, rnd, Or.inl rfl⟩))⟩
        | true =>
          exact ⟨disable (disintegrate b rnd), rfl,
            Or.inr (Or.inr (Or.inl ⟨hs, rnd, Or.inr rfl⟩))⟩
      | STATE_DISINTEGRATING =>
        cases ad with
        | false => exact ⟨b, rfl, Or.inl rfl⟩
        | true =>
          refine ⟨{ b with removed := true }, ?_, Or.inr (Or.inr (Or.inr ⟨hs, rfl⟩))⟩
          simp [hs]
    · rw [update_block_ne i j rnd ad s wb b hi h hji]
      by_cases c : wb.state = State.STATE_BURNING ∧ ad = true ∧ wb.linked = true
          ∧ b.state = State.STATE_NORMAL ∧ near wb b
      · exact ⟨burn b, by rw [if_pos c], Or.inr (Or.inl ⟨c.2.2.2.1, rfl⟩)⟩
      · exact ⟨b, by rw [if_neg c], Or.inl rfl⟩

/-- Every call of a method changes every block of the listing by one `Step`. -/
theorem op_step (op : Op) (s : Sector) (j : Nat) (b : WeakBlock) (h : s.block j = some b) :
    ∃ b', (op.apply s).block j = some b' ∧ Step b b' := by
  cases op with
  | startBurning i => exact startBurning_step i j s b h
  | spreadHit i => exact spreadHit_step i j s b h
  | collision_bullet i bullet hit =>
    rcases collision_bullet_sector i bullet hit s with e | e
    · exact ⟨b, by simp only [Op.apply]; rw [e]; exact h, Or.inl rfl⟩
    · simp only [Op.apply]
      rw [e]
      exact startBurning_step i j s b h
  | collision i other hit =>
    rcases collision_sector i other hit s with e | e
    · exact ⟨b, by simp only [Op.apply]; rw [e]; exact h, Or.inl rfl⟩
    · simp only [Op.apply]
      rw [e]
      exact startBurning_step i j s b h
  | update i rnd ad => exact update_step i j rnd ad s b h

theorem rank_step (b b' : WeakBlock) (h : Step b b') :
    rank b ≤ rank b'
      ∧ (b'.removed = true → b.removed = true ∨ b.state = State.STATE_DISINTEGRATING) := by
  rcases h with h | ⟨hs, h⟩ | ⟨hs, rnd, h | h⟩ | ⟨hs, h⟩
  · subst h
    exact ⟨le_refl _, fun hr => Or.inl hr⟩
  · subst h
    refine ⟨?_, fun hr => Or.inl hr⟩
    unfold rank
    simp only [burn, hs]
    split <;> simp
  · subst h
    refine ⟨?_, fun hr => Or.inl (by rw [← flicker_removed b rnd]; exact hr)⟩
    unfold rank
    rw [flicker_removed, flicker_state]
  · subst h
    have hr : (disable (disintegrate b rnd)).removed = b.removed := flicker_removed b rnd
    refine ⟨?_, fun h => Or.inl (by rw [← hr]; exact h)⟩
    unfold rank
    rw [hr]
    simp only [disable, disintegrate, hs]
    split <;> simp
  · subst h
    refine ⟨?_, fun _ => Or.inr hs⟩
    unfold rank
    simp only [hs]
    split <;> simp

theorem step_keeps_disintegrating (b b' : WeakBlock) (h : Step b b')
    (hs : b.state = State.STATE_DISINTEGRATING) : b'.state = State.STATE_DISINTEGRATING := by
  rcases h with h | ⟨hn, _⟩ | ⟨hn, _⟩ | ⟨_, h⟩
  · rw [h]; exact hs
  · rw [hs] at hn; cases hn
  · rw [hs] at hn; cases hn
  · rw [h]; exact hs

theorem run_keeps_disintegrating (ops : List Op) :
    ∀ (s : Sector) (i : Nat) (b : WeakBlock), s.block i = some b →
      b.state = State.STATE_DISINTEGRATING →
      ∃ b', (run ops s).block i = some b' ∧ b'.state = State.STATE_DISINTEGRATING := by
  induction ops with
  | nil =>
    intro s i b h hs
    exact ⟨b, h, hs⟩
  | cons op ops ih =>
    intro s i b h hs
    obtain ⟨b1, h1, hstep⟩ := op_step op s i b h
    exact ih (op.apply s) i b1 h1 (step_keeps_disintegrating b b1 hstep hs)

theorem collision_bullet_fire_normal (i : Nat) (bullet : Bullet) (hit : CollisionHit)
    (s : Sector) (wb : WeakBlock) (h : s.block i = some wb)
    (hs : wb.state = State.STATE_NORMAL) (hf : bullet.type = BonusType.FIRE_BONUS) :
    collision_bullet i bullet hit s
      = (HitResponse.FORCE_MOVE, startBurning i s, bullet.remove_me) := by
  simp [collision_bullet, h, hs, hf]

theorem collision_explosion_normal (i : Nat) (hit : CollisionHit)
    (s : Sector) (wb : WeakBlock) (h : s.block i = some wb)
    (hs : wb.state = State.STATE_NORMAL) :
    collision i GameObject.explosion hit s
      = (HitResponse.FORCE_MOVE, startBurning i s, GameObject.explosion) := by
  simp [collision, h, hs]

theorem collision_bullet_normal (i : Nat) (bullet : Bullet) (hit : CollisionHit)
    (s : Sector) (wb : WeakBlock) (h : s.block i = some wb)
    (hs : wb.state = State.STATE_NORMAL) :
    collision i (GameObject.bullet bullet) hit s
      = ((collision_bullet i bullet hit s).1, (collision_bullet i bullet hit s).2.1,
          GameObject.bullet (collision_bullet i bullet hit s).2.2) := by
  simp [collision, h, hs]

theorem startBurning_played (s : Sector) (i : Nat) (wb : WeakBlock)
    (h : s.block i = some wb) (hs : wb.state = State.STATE_NORMAL) :
    (startBurning i s).played = s.played ++ ignition_sounds wb.sprite_name := by
  unfold ignition_sounds
  simp only [startBurning, h, hs, ne_eq, not_true_eq_false, if_false]
  split
  · rfl
  · split
    · rfl
    · simp [Sector.set_block]

theorem collision_bullet_not_normal (i : Nat) (bullet : Bullet) (hit : CollisionHit)
    (s : Sector) (wb : WeakBlock) (h : s.block i = some wb)
    (hs : wb.state ≠ State.STATE_NORMAL) :
    collision_bullet i bullet hit s = (HitResponse.FORCE_MOVE, s, bullet) := by
  cases hst : wb.state with
  | STATE_NORMAL => exact absurd hst hs
  | STATE_BURNING => simp [collision_bullet, h, hst]
  | STATE_DISINTEGRATING => simp [collision_bullet, h, hst]

theorem collision_not_badguy_not_normal (i : Nat) (other : GameObject) (hit : CollisionHit)
    (s : Sector) (wb : WeakBlock) (h : s.block i = some wb)
    (hs : wb.state ≠ State.STATE_NORMAL) (ho : ∀ g, other ≠ GameObject.badguy g) :
    collision i other hit s = (HitResponse.FORCE_MOVE, s, other) := by
  cases hst : wb.state with
  | STATE_NORMAL => exact absurd hst hs
  | STATE_BURNING =>
    by_cases hn : wb.sprite_name = strawbox
    · cases other with
      | badguy g => exact absurd rfl (ho g)
      | bullet b => simp [collision, h, hst, hn]
      | explosion => simp [collision, h, hst, hn]
      | plain => simp [collision, h, hst, hn]
    · simp [collision, h, hst, hn]
  | STATE_DISINTEGRATING => simp [collision, h, hst]

theorem fire_contact_normal (i : Nat) (op : Op) (s : Sector) (wb : WeakBlock)
    (h : s.block i = some wb) (hs : wb.state = State.STATE_NORMAL)
    (hf : fire_contact i op = true) : op.apply s = startBurning i s := by
  cases op with
  | startBurning k => simp [fire_contact] at hf
  | spreadHit k => simp [fire_contact] at hf
  | update k rnd ad => simp [fire_contact] at hf
  | collision_bullet k bullet hit =>
    simp only [fire_contact, decide_eq_true_eq] at hf
    obtain ⟨rfl, hb⟩ := hf
    simp only [Op.apply]
    rw [collision_bullet_fire_normal k bullet hit s wb h hs hb]
  | collision k other hit =>
    cases other with
    | bullet bullet =>
      simp only [fire_contact, decide_eq_true_eq] at hf
      obtain ⟨rfl, hb⟩ := hf
      simp only [Op.apply]
      rw [collision_bullet_normal k bullet hit s wb h hs,
        collision_bullet_fire_normal k bullet hit s wb h hs hb]
    | explosion => simp [fire_contact] at hf
    | badguy g => simp [fire_contact] at hf
    | plain => simp [fire_contact] at hf

theorem fire_contact_not_normal (i : Nat) (op : Op) (s : Sector) (wb : WeakBlock)
    (h : s.block i = some wb) (hs : wb.state ≠ State.STATE_NORMAL)
    (hf : fire_contact i op = true) : op.apply s = s := by
  cases op with
  | startBurning k => simp [fire_contact] at hf
  | spreadHit k => simp [fire_contact] at hf
  | update k rnd ad => simp [fire_contact] at hf
  | collision_bullet k bullet hit =>
    simp only [fire_contact, decide_eq_true_eq] at hf
    obtain ⟨rfl, _⟩ := hf
    simp only [Op.apply]
    rw [collision_bullet_not_normal k bullet hit s wb h hs]
  | collision k other hit =>
    cases other with
    | bullet bullet =>
      simp only [fire_contact, decide_eq_true_eq] at hf
      obtain ⟨rfl, _⟩ := hf
      simp only [Op.apply]
      rw [collision_not_badguy_not_normal k _ hit s wb h hs (fun g e => by cases e)]
    | explosion => simp [fire_contact] at hf
    | badguy g => simp [fire_contact] at hf
    | plain => simp [fire_contact] at hf

theorem fire_contacts_not_normal (i : Nat) (ops : List Op) (s : Sector) (wb : WeakBlock)
    (h : s.block i = some wb) (hs : wb.state ≠ State.STATE_NORMAL)
    (hall : ∀ o ∈ ops, fire_contact i o = true) :
    run ops s = s ∧ ignitions i ops s = 0 := by
  induction ops with
  | nil => exact ⟨rfl, rfl⟩
  | cons op ops ih =>
    have e : op.apply s = s :=
      fire_contact_not_normal i op s wb h hs (hall op (List.mem_cons_self op ops))
    have ih' := ih (fun o ho => hall o (List.mem_cons_of_mem op ho))
    constructor
    · simp only [run, List.foldl_cons]
      rw [e]
      exact ih'.1
    · simp only [ignitions]
      rw [e, ih'.2]
      have hne : ¬ (state_of s i = some State.STATE_NORMAL
          ∧ state_of s i = some State.STATE_BURNING) := by
        intro c
        rw [c.1] at c
        cases c.2
      rw [if_neg hne]

theorem collision_badguy (i : Nat) (g : BadGuy) (hit : CollisionHit) (s : Sector)
    (wb : WeakBlock) (h : s.block i = some wb) :
    collision i (GameObject.badguy g) hit s
      = (HitResponse.FORCE_MOVE, s,
          GameObject.badguy
            (if wb.state = State.STATE_BURNING ∧ wb.sprite_name = strawbox
              then g.ignite else g)) := by
  cases hst : wb.state with
  | STATE_NORMAL => simp [collision, h, hst]
  | STATE_BURNING =>
    by_cases hn : wb.sprite_name = strawbox
    · simp [collision, h, hst, hn]
    · simp [collision, h, hst, hn]
  | STATE_DISINTEGRATING => simp [collision, h, hst]

theorem collide_all_badguy (i : Nat) (hits : List CollisionHit) (s : Sector)
    (wb : WeakBlock) (h : s.block i = some wb) :
    ∀ g : BadGuy, collide_all i hits s (GameObject.badguy g)
      = (s, GameObject.badguy
          ⟨g.ignite_calls
            + (if wb.state = State.STATE_BURNING ∧ wb.sprite_name = strawbox
                then hits.length else 0)⟩) := by
  induction hits with
  | nil =>
    intro g
    simp [collide_all]
  | cons hit hits ih =>
    intro g
    simp only [collide_all]
    rw [collision_badguy i g hit s wb h]
    simp only
    rw [ih]
    by_cases c : wb.state = State.STATE_BURNING ∧ wb.sprite_name = strawbox
    · simp only [if_pos c, BadGuy.ignite, List.length_cons]
      have e : g.ignite_calls + 1 + hits.length = g.ignite_calls + (hits.length + 1) := by
        omega
      rw [e]
    · simp only [if_neg c]

/-! ## The listing keeps its length -/

theorem block_some_iff_lt (s : Sector) (j : Nat) :
    (∃ b, s.block j = some b) ↔ j < s.weak_blocks.length := by
  constructor
  · rintro ⟨b, hb⟩
    by_contra hc
    have hn : s.block j = none := List.getElem?_eq_none (Nat.le_of_not_lt hc)
    rw [hn] at hb
    cases hb
  · intro hlt
    exact ⟨s.weak_blocks[j], List.getElem?_eq_getElem hlt⟩

theorem startBurning_length (i : Nat) (s : Sector) :
    (startBurning i s).weak_blocks.length = s.weak_blocks.length := by
  unfold startBurning
  cases s.block i with
  | none => rfl
  | some wb =>
    simp only
    split
    · rfl
    · split
      · simp [Sector.play, Sector.set_block]
      · split
        · simp [Sector.play, Sector.set_block]
        · simp [Sector.set_block]

theorem spreadHit_visit_length (this k : Nat) (s : Sector) :
    (spreadHit_visit this k s).weak_blocks.length = s.weak_blocks.length := by
  unfold spreadHit_visit
  split
  · split
    · simp only
      split
      · exact startBurning_length k s
      · rfl
    · rfl
  · rfl

theorem spreadHit_fold_length (this : Nat) (js : List Nat) :
    ∀ s : Sector, (js.foldl (fun acc k => spreadHit_visit this k acc) s).weak_blocks.length
      = s.weak_blocks.length := by
  induction js with
  | nil => intro s; rfl
  | cons k js ih =>
    intro s
    rw [List.foldl_cons, ih, spreadHit_visit_length]

theorem spreadHit_length (this : Nat) (s : Sector) :
    (spreadHit this s).weak_blocks.length = s.weak_blocks.length := by
  unfold spreadHit
  cases s.block this with
  | none => rfl
  | some me =>
    simp only
    split
    · exact spreadHit_fold_length this _ s
    · rfl

theorem set_block_length (s : Sector) (i : Nat) (wb : WeakBlock) :
    (s.set_block i wb).weak_blocks.length = s.weak_blocks.length := by
  simp [Sector.set_block]

theorem update_length (this : Nat) (rnd : Draws) (ad : Bool) (s : Sector) :
    (update this rnd ad s).weak_blocks.length = s.weak_blocks.length := by
  cases h : s.block this with
  | none => rw [update_none this rnd ad s h]
  | some wb =>
    cases hs : wb.state with
    | STATE_NORMAL => rw [update_normal this rnd ad s wb h hs]
    | STATE_BURNING =>
      cases ad with
      | false => rw [update_burning_not_done this rnd s wb h hs, set_block_length]
      | true =>
        rw [update_burning_done this rnd s wb h hs, set_block_length, spreadHit_length,
          set_block_length]
    | STATE_DISINTEGRATING =>
      cases ad with
      | false => rw [update_disintegrating_not_done this rnd s wb h hs]
      | true => rw [update_disintegrating_done this rnd s wb h hs, set_block_length]

theorem apply_length (op : Op) (s : Sector) :
    (op.apply s).weak_blocks.length = s.weak_blocks.length := by
  cases op with
  | startBurning i => exact startBurning_length i s
  | spreadHit i => exact spreadHit_length i s
  | collision_bullet i bullet hit =>
    simp only [Op.apply]
    rcases collision_bullet_sector i bullet hit s with e | e
    · rw [e]
    · rw [e, startBurning_length]
  | collision i other hit =>
    simp only [Op.apply]
    rcases collision_sector i other hit s with e | e
    · rw [e]
    · rw [e, startBurning_length]
  | update i rnd ad => exact update_length i rnd ad s

/-- A block found after a call is one step away from the block that was at its
index before the call. -/
theorem op_step_back (op : Op) (s : Sector) (j : Nat) (b' : WeakBlock)
    (h : (op.apply s).block j = some b') :
    ∃ b, s.block j = some b ∧ Step b b' := by
  have hlt : j < s.weak_blocks.length := by
    rw [← apply_length op s]
    exact (block_some_iff_lt (op.apply s) j).mp ⟨b', h⟩
  obtain ⟨b, hb⟩ := (block_some_iff_lt s j).mpr hlt
  obtain ⟨b1, hb1, hstep⟩ := op_step op s j b hb
  rw [h] at hb1
  cases hb1
  exact ⟨b, hb, hstep⟩

theorem run_invariant (P : WeakBlock → Prop)
    (hP : ∀ b b', Step b b' → P b → P b') (ops : List Op) :
    ∀ s : Sector, (∀ j b, s.block j = some b → P b) →
      ∀ j b, (run ops s).block j = some b → P b := by
  induction ops with
  | nil =>
    intro s hs j b hb
    exact hs j b hb
  | cons op ops ih =>
    intro s hs j b hb
    apply ih (op.apply s) _ j b hb
    intro k c hc
    obtain ⟨c0, hc0, hstep⟩ := op_step_back op s k c hc
    exact hP c0 c hstep (hs k c0 hc0)

/-! ## Construction and the blocks reachable from it -/

theorem construct_state (lisp : ReaderMapping) (light : LightSprite) :
    (WeakBlock.construct lisp light).1.state = State.STATE_NORMAL := by
  cases hl : lisp.linked with
  | none => simp only [WeakBlock.construct, hl]; split_ifs <;> rfl
  | some l => cases l <;> simp only [WeakBlock.construct, hl] <;> split_ifs <;> rfl

theorem construct_group (lisp : ReaderMapping) (light : LightSprite) :
    (WeakBlock.construct lisp light).1.group = CollisionGroup.COLGROUP_STATIC := by
  cases hl : lisp.linked with
  | none => simp only [WeakBlock.construct, hl]; split_ifs <;> rfl
  | some l => cases l <;> simp only [WeakBlock.construct, hl] <;> split_ifs <;> rfl

theorem construct_removed (lisp : ReaderMapping) (light : LightSprite) :
    (WeakBlock.construct lisp light).1.removed = false := by
  cases hl : lisp.linked with
  | none => simp only [WeakBlock.construct, hl]; split_ifs <;> rfl
  | some l => cases l <;> simp only [WeakBlock.construct, hl] <;> split_ifs <;> rfl

theorem constructed_block (cfgs : List (ReaderMapping × LightSprite)) (j : Nat)
    (b : WeakBlock) (h : (constructed cfgs).block j = some b) :
    ∃ c : ReaderMapping × LightSprite, b = (WeakBlock.construct c.1 c.2).1 := by
  simp only [constructed, Sector.block, List.getElem?_map] at h
  cases hc : cfgs[j]? with
  | none => rw [hc] at h; cases h
  | some c =>
    rw [hc] at h
    exact ⟨c, (Option.some.inj h).symm⟩

theorem consistent_step (b b' : WeakBlock) (h : Step b b') (hb : Consistent b) :
    Consistent b' := by
  obtain ⟨h1, h2, h3⟩ := hb
  rcases h with h | ⟨hs, h⟩ | ⟨hs, rnd, h | h⟩ | ⟨hs, h⟩
  · rw [h]; exact ⟨h1, h2, h3⟩
  · subst h
    refine ⟨?_, fun _ => h2 (Or.inl hs), fun c => ?_⟩
    · intro hr
      have := h1 hr
      rw [hs] at this
      cases this
    · cases c
  · subst h
    refine ⟨?_, ?_, ?_⟩
    · intro hr
      rw [flicker_removed] at hr
      have := h1 hr
      rw [hs] at this
      cases this
    · intro _
      rw [flicker_group]
      exact h2 (Or.inr hs)
    · intro c
      rw [flicker_state, hs] at c
      cases c
  · subst h
    refine ⟨fun _ => rfl, ?_, fun _ => rfl⟩
    intro c
    rcases c with c | c <;> cases c
  · subst h
    exact ⟨fun _ => hs, fun c => h2 c, fun c => h3 c⟩

theorem consistent_constructed (cfgs : List (ReaderMapping × LightSprite)) (j : Nat)
    (b : WeakBlock) (h : (constructed cfgs).block j = some b) : Consistent b := by
  obtain ⟨c, rfl⟩ := constructed_block cfgs j b h
  refine ⟨?_, fun _ => construct_group c.1 c.2, ?_⟩
  · intro hr
    rw [construct_removed] at hr
    cases hr
  · intro hs
    rw [construct_state] at hs
    cases hs

theorem consistent_reachable (cfgs : List (ReaderMapping × LightSprite)) (ops : List Op)
    (j : Nat) (b : WeakBlock) (h : (run ops (constructed cfgs)).block j = some b) :
    Consistent b :=
  run_invariant Consistent consistent_step ops (constructed cfgs)
    (consistent_constructed cfgs) j b h

/-! ## Which calls raise the removal flag -/

theorem startBurning_removed (i j : Nat) (s : Sector) (b : WeakBlock)
    (h : s.block j = some b) :
    ∃ b', (startBurning i s).block j = some b' ∧ b'.removed = b.removed := by
  by_cases hij : i = j
  · subst hij
    rw [startBurning_block_self s i b h]
    by_cases hs : b.state = State.STATE_NORMAL
    · exact ⟨burn b, by rw [if_pos hs], rfl⟩
    · exact ⟨b, by rw [if_neg hs], rfl⟩
  · rw [startBurning_block_ne s i j hij]
    exact ⟨b, h, rfl⟩

theorem spreadHit_removed (i j : Nat) (s : Sector) (b : WeakBlock)
    (h : s.block j = some b) :
    ∃ b', (spreadHit i s).block j = some b' ∧ b'.removed = b.removed := by
  cases hi : s.block i with
  | none =>
    rw [spreadHit_none i s hi]
    exact ⟨b, h, rfl⟩
  | some me =>
    rw [spreadHit_block i j s me b hi h]
    by_cases c : me.linked = true ∧ j ≠ i ∧ b.state = State.STATE_NORMAL ∧ near me b
    · exact ⟨burn b, by rw [if_pos c], rfl⟩
    · exact ⟨b, by rw [if_neg c], rfl⟩

/-- After a call, a block's removal flag is raised exactly when it was raised
before or the call is an `update` of that block, in `STATE_DISINTEGRATING`, with
the animation done. -/
theorem apply_removed (op : Op) (s : Sector) (j : Nat) (b : WeakBlock)
    (h : s.block j = some b) :
    ∃ b', (op.apply s).block j = some b'
      ∧ (b'.removed = true ↔
          b.removed = true
            ∨ (b.state = State.STATE_DISINTEGRATING ∧ ∃ rnd, op = Op.update j rnd true)) := by
  have key : ∀ b' : WeakBlock, b'.removed = b.removed →
      (∀ rnd, op ≠ Op.update j rnd true) →
      (b'.removed = true ↔
          b.removed = true
            ∨ (b.state = State.STATE_DISINTEGRATING ∧ ∃ rnd, op = Op.update j rnd true)) := by
    intro b' hr hop
    rw [hr]
    constructor
    · exact fun c => Or.inl c
    · rintro (c | ⟨_, rnd, c⟩)
      · exact c
      · exact absurd c (hop rnd)
  cases op with
  | startBurning i =>
    obtain ⟨b', hb', hr⟩ := startBurning_removed i j s b h
    exact ⟨b', hb', key b' hr (fun rnd e => by cases e)⟩
  | spreadHit i =>
    obtain ⟨b', hb', hr⟩ := spreadHit_removed i j s b h
    exact ⟨b', hb', key b' hr (fun rnd e => by cases e)⟩
  | collision_bullet i bullet hit =>
    simp only [Op.apply]
    rcases collision_bullet_sector i bullet hit s with e | e
    · rw [e]
      exact ⟨b, h, key b rfl (fun rnd e => by cases e)⟩
    · rw [e]
      obtain ⟨b', hb', hr⟩ := startBurning_removed i j s b h
      exact ⟨b', hb', key b' hr (fun rnd e => by cases e)⟩
  | collision i other hit =>
    simp only [Op.apply]
    rcases collision_sector i other hit s with e | e
    · rw [e]
      exact ⟨b, h, key b rfl (fun rnd e => by cases e)⟩
    · rw [e]
      obtain ⟨b', hb', hr⟩ := startBurning_removed i j s b h
      exact ⟨b', hb', key b' hr (fun rnd e => by cases e)⟩
  | update i rnd ad =>
    simp only [Op.apply]
    by_cases hji : j = i
    · subst hji
      rw [update_block_self j rnd ad s b h]
      cases hs : b.state with
      | STATE_NORMAL =>
        refine ⟨b, rfl, ?_⟩
        constructor
        · exact fun c => Or.inl c
        · rintro (c | ⟨c, _⟩)
          · exact c
          · cases c
      | STATE_BURNING =>
        cases ad with
        | false =>
          refine ⟨flicker b rnd, rfl, ?_⟩
          rw [flicker_removed]
          constructor
          · exact fun c => Or.inl c
          · rintro (c | ⟨c, _⟩)
            · exact c
            · cases c
        | true =>
          refine ⟨disable (disintegrate b rnd), rfl, ?_⟩
          have hr : (disable (disintegrate b rnd)).removed = b.removed := flicker_removed b rnd
          rw [hr]
          constructor
          · exact fun c => Or.inl c
          · rintro (c | ⟨c, _⟩)
            · exact c
            · cases c
      | STATE_DISINTEGRATING =>
        cases ad with
        | false =>
          refine ⟨b, rfl, ?_⟩
          constructor
          · exact fun c => Or.inl c
          · rintro (c | ⟨_, rnd', c⟩)
            · exact c
            · cases c
        | true =>
          refine ⟨{ b with removed := true }, by simp [hs], ?_⟩
          constructor
          · exact fun _ => Or.inr ⟨rfl, rnd, rfl⟩
          · exact fun _ => rfl
    · cases hi : s.block i with
      | none =>
        rw [update_none i rnd ad s hi]
        refine ⟨b, h, key b rfl ?_⟩
        intro rnd' e
        injection e with e1
        exact hji e1.symm
      | some wb =>
        rw [update_block_ne i j rnd ad s wb b hi h hji]
        have hop : ∀ rnd', Op.update i rnd ad ≠ Op.update j rnd' true := by
          intro rnd' e
          injection e with e1
          exact hji e1.symm
        by_cases c : wb.state = State.STATE_BURNING ∧ ad = true ∧ wb.linked = true
            ∧ b.state = State.STATE_NORMAL ∧ near wb b
        · exact ⟨burn b, by rw [if_pos c], key (burn b) rfl hop⟩
        · exact ⟨b, by rw [if_neg c], key b rfl hop⟩

theorem construct_sprite_name_kept (lisp : ReaderMapping) (light : LightSprite)
    (hl : lisp.linked ≠ some false) :
    (WeakBlock.construct lisp light).1.sprite_name = lisp.sprite.getD strawbox := by
  cases h : lisp.linked with
  | none => simp only [WeakBlock.construct, h]; split_ifs <;> rfl
  | some l =>
    cases l with
    | false => exact absurd h hl
    | true =>
      simp only [WeakBlock.construct, h]
      split_ifs <;> first | rfl | contradiction

theorem construct_preload_unrecognised (lisp : ReaderMapping) (light : LightSprite)
    (hl : lisp.linked ≠ some false) (h1 : lisp.sprite.getD strawbox ≠ strawbox)
    (h2 : lisp.sprite.getD strawbox ≠ meltbox) :
    (WeakBlock.construct lisp light).2 = [] := by
  have hb : (MovingSprite.construct lisp strawbox CollisionGroup.COLGROUP_STATIC).sprite_name
      = lisp.sprite.getD strawbox := rfl
  cases h : lisp.linked with
  | none => simp [WeakBlock.construct, h, hb, h1, h2]
  | some l =>
    cases l with
    | false => exact absurd h hl
    | true => simp [WeakBlock.construct, h, hb, h1, h2]

/-! ## The light colour is never read -/

theorem block_erase_colors (s : Sector) (j : Nat) :
    s.erase_colors.block j = (s.block j).map erase_color := by
  simp [Sector.erase_colors, Sector.block]

theorem erase_colors_set_block (s : Sector) (i : Nat) (wb : WeakBlock) :
    (s.set_block i wb).erase_colors = s.erase_colors.set_block i (erase_color wb) := by
  simp [Sector.erase_colors, Sector.set_block, List.map_set]

theorem erase_colors_idem (s : Sector) : s.erase_colors.erase_colors = s.erase_colors := by
  have h : erase_color ∘ erase_color = erase_color := by
    funext wb
    rfl
  simp [Sector.erase_colors, h]

theorem erase_color_flicker (wb : WeakBlock) (rnd : Draws) :
    erase_color (flicker wb rnd) = erase_color wb := by
  unfold flicker
  split
  · split <;> rfl
  · rfl

theorem erase_color_disintegrate (wb : WeakBlock) (rnd rnd' : Draws) :
    erase_color (disintegrate wb rnd) = erase_color (disintegrate (erase_color wb) rnd') := by
  have h : ∀ (b : WeakBlock) (r : Draws), erase_color (disintegrate b r)
      = erase_color { b with state := State.STATE_DISINTEGRATING,
                             sprite := b.sprite.set_action "disintegrating" 1 } := by
    intro b r
    unfold disintegrate flicker
    split_ifs <;> rfl
  rw [h wb rnd, h (erase_color wb) rnd']
  rfl

theorem erase_color_disable (wb : WeakBlock) (rnd rnd' : Draws) :
    erase_color (disable (disintegrate wb rnd))
      = erase_color (disable (disintegrate (erase_color wb) rnd')) := by
  have h : ∀ b : WeakBlock, erase_color (disable b) = erase_color (disable (erase_color b)) :=
    fun _ => rfl
  rw [h (disintegrate wb rnd), h (disintegrate (erase_color wb) rnd'),
    erase_color_disintegrate wb rnd rnd']

theorem startBurning_erase_colors (i : Nat) (s : Sector) :
    (startBurning i s).erase_colors = startBurning i s.erase_colors := by
  unfold startBurning
  rw [block_erase_colors]
  cases s.block i with
  | none => rfl
  | some wb =>
    simp only [Option.map_some']
    have hs : (erase_color wb).state = wb.state := rfl
    have hn : (erase_color wb).sprite_name = wb.sprite_name := rfl
    rw [hs, hn]
    split
    · rfl
    · split
      · simp only [Sector.play, Sector.erase_colors, Sector.set_block, List.map_set]
        rfl
      · split
        · simp only [Sector.play, Sector.erase_colors, Sector.set_block, List.map_set]
          rfl
        · simp only [Sector.erase_colors, Sector.set_block, List.map_set]
          rfl

theorem spreadHit_visit_erase_colors (this k : Nat) (s : Sector) :
    (spreadHit_visit this k s).erase_colors = spreadHit_visit this k s.erase_colors := by
  unfold spreadHit_visit
  rw [block_erase_colors, block_erase_colors]
  cases s.block this with
  | none => rfl
  | some me =>
    cases s.block k with
    | none => rfl
    | some wb =>
      simp only [Option.map_some']
      have hs : (erase_color wb).state = wb.state := rfl
      have hp : (erase_color wb).get_pos = wb.get_pos := rfl
      have hm : (erase_color me).bbox_p1 = me.bbox_p1 := rfl
      rw [hs, hp, hm]
      split
      · split
        · exact startBurning_erase_colors k s
        · rfl
      · rfl

theorem spreadHit_fold_erase_colors (this : Nat) (js : List Nat) :
    ∀ s : Sector, (js.foldl (fun acc k => spreadHit_visit this k acc) s).erase_colors
      = js.foldl (fun acc k => spreadHit_visit this k acc) s.erase_colors := by
  induction js with
  | nil => intro s; rfl
  | cons k js ih =>
    intro s
    rw [List.foldl_cons, List.foldl_cons, ih, spreadHit_visit_erase_colors]

theorem spreadHit_erase_colors (this : Nat) (s : Sector) :
    (spreadHit this s).erase_colors = spreadHit this s.erase_colors := by
  unfold spreadHit
  rw [block_erase_colors]
  cases s.block this with
  | none => rfl
  | some me =>
    simp only [Option.map_some']
    have hl : (erase_color me).linked = me.linked := rfl
    have hlen : s.erase_colors.weak_blocks.length = s.weak_blocks.length := by
      simp [Sector.erase_colors]
    rw [hl, hlen]
    split
    · exact spreadHit_fold_erase_colors this _ s
    · rfl

/-- With the light colours blanked out, the sector `update` produces is the one
it produces from the blanked sector, whatever the draws of either run. -/
theorem update_erase_colors (this : Nat) (rnd rnd' : Draws) (ad : Bool) (s : Sector) :
    (update this rnd ad s).erase_colors
      = (update this rnd' ad s.erase_colors).erase_colors := by
  cases h : s.block this with
  | none =>
    have h' : s.erase_colors.block this = none := by rw [block_erase_colors, h]; rfl
    rw [update_none this rnd ad s h, update_none this rnd' ad _ h', erase_colors_idem]
  | some wb =>
    have h' : s.erase_colors.block this = some (erase_color wb) := by
      rw [block_erase_colors, h]; rfl
    cases hs : wb.state with
    | STATE_NORMAL =>
      rw [update_normal this rnd ad s wb h hs,
        update_normal this rnd' ad _ (erase_color wb) h' hs, erase_colors_idem]
    | STATE_BURNING =>
      cases ad with
      | false =>
        rw [update_burning_not_done this rnd s wb h hs,
          update_burning_not_done this rnd' _ (erase_color wb) h' hs,
          erase_colors_set_block, erase_colors_set_block, erase_colors_idem,
          erase_color_flicker, erase_color_flicker]
        rfl
      | true =>
        rw [update_burning_done this rnd s wb h hs,
          update_burning_done this rnd' _ (erase_color wb) h' hs,
          erase_colors_set_block, erase_colors_set_block, spreadHit_erase_colors,
          spreadHit_erase_colors, erase_colors_set_block, erase_colors_set_block,
          erase_colors_idem, ← erase_color_disintegrate wb rnd rnd',
          ← erase_color_disable wb rnd rnd']
    | STATE_DISINTEGRATING =>
      cases ad with
      | false =>
        rw [update_disintegrating_not_done this rnd s wb h hs,
          update_disintegrating_not_done this rnd' _ (erase_color wb) h' hs,
          erase_colors_idem]
      | true =>
        rw [update_disintegrating_done this rnd s wb h hs,
          update_disintegrating_done this rnd' _ (erase_color wb) h' hs,
          erase_colors_set_block, erase_colors_set_block, erase_colors_idem]
        rfl

theorem construct_unlinked (lisp : ReaderMapping) (light : LightSprite)
    (hl : lisp.linked = some false) :
    (WeakBlock.construct lisp light).1.sprite_name = meltbox
      ∧ (WeakBlock.construct lisp light).2 = ["sounds/sizzle.ogg"] := by
  have hne : meltbox ≠ strawbox := by decide
  simp [WeakBlock.construct, hl, hne]

/-! ## The properties -/

/-- C1: whatever method is called, on whatever object of the sector, the
lifecycle rank (NORMAL < BURNING < DISINTEGRATING < removed) of every block of
the sector after the call is at least its rank before, and a block that is
removed after the call was removed or DISINTEGRATING before it. -/
theorem C1_lifecycle_never_regresses (op : Op) (s : Sector) (j : Nat) (b : WeakBlock)
    (h : s.block j = some b) :
    ∃ b', (op.apply s).block j = some b' ∧ rank b ≤ rank b'
      ∧ (b'.removed = true → b.removed = true ∨ b.state = State.STATE_DISINTEGRATING) := by
  obtain ⟨b', hb', hstep⟩ := op_step op s j b h
  exact ⟨b', hb', rank_step b b' hstep⟩

/-- The second block of `two_straw` keeps its rank through an `update` of the first. -/
theorem C1_lifecycle_never_regresses_witness :
    two_straw.block 1 = some (fresh strawbox true 32 0)
      ∧ ∃ b', ((Op.update 0 draws0 true).apply two_straw).block 1 = some b'
        ∧ rank (fresh strawbox true 32 0) ≤ rank b'
        ∧ (b'.removed = true → (fresh strawbox true 32 0).removed = true
            ∨ (fresh strawbox true 32 0).state = State.STATE_DISINTEGRATING) :=
  ⟨rfl, C1_lifecycle_never_regresses (Op.update 0 draws0 true) two_straw 1
    (fresh strawbox true 32 0) rfl⟩

/-- C2: `startBurning` on a block that is BURNING or DISINTEGRATING leaves the
whole sector (the block's state and sprite action, the played-sound log, every
sibling) unchanged, and calling `startBurning` twice gives exactly the sector
that calling it once gives. -/
theorem C2_startBurning_idempotent (s : Sector) (i : Nat) (wb : WeakBlock)
    (h : s.block i = some wb) :
    ((wb.state = State.STATE_BURNING ∨ wb.state = State.STATE_DISINTEGRATING) →
        startBurning i s = s)
      ∧ startBurning i (startBurning i s) = startBurning i s := by
  constructor
  · intro hs
    apply startBurning_not_normal s i wb h
    rcases hs with hs | hs <;> rw [hs] <;> decide
  · have h1 := startBurning_block_self s i wb h
    apply startBurning_not_normal (startBurning i s) i _ h1
    by_cases hs : wb.state = State.STATE_NORMAL
    · rw [if_pos hs]
      simp [burn]
    · rw [if_neg hs]
      exact hs

/-- The first block of `two_straw`, once ignited, ignores further ignitions: the
fire sound stays played once. -/
theorem C2_startBurning_idempotent_witness :
    (startBurning 0 two_straw).block 0 = some (burn (fresh strawbox true 0 0))
      ∧ ((burn (fresh strawbox true 0 0)).state = State.STATE_BURNING
          ∨ (burn (fresh strawbox true 0 0)).state = State.STATE_DISINTEGRATING)
      ∧ startBurning 0 (startBurning 0 two_straw) = startBurning 0 two_straw
      ∧ startBurning 0 (startBurning 0 (startBurning 0 two_straw)) = startBurning 0 two_straw
      ∧ (startBurning 0 (startBurning 0 two_straw)).played = ["sounds/fire.ogg"] :=
  have h := C2_startBurning_idempotent (startBurning 0 two_straw) 0
    (burn (fresh strawbox true 0 0)) rfl
  ⟨rfl, Or.inl rfl, h.1 (Or.inl rfl), by rw [h.2, h.1 (Or.inl rfl)], by decide⟩

/-- C3, as stated, fails: in `edge_pair` the linked block A is anchored at
`(-2^-30, 0)` and its NORMAL sibling at `(32.5, 0)`, both coordinates being
`float` values; the exact difference in x is `32.5 + 2^-30`, above 32.5, yet
the scan from A leaves the sibling BURNING, because the `float` subtraction
returns 32.5. -/
theorem C3_counterexample :
    edge_pair.block 0 = some (fresh strawbox true (-(1 / 2 ^ 30)) 0)
      ∧ (fresh strawbox true (-(1 / 2 ^ 30)) 0).linked = true
      ∧ edge_pair.block 1 = some (fresh strawbox true (65 / 2) 0)
      ∧ (fresh strawbox true (65 / 2) 0).state = State.STATE_NORMAL
      ∧ ¬ (|(fresh strawbox true (65 / 2) 0).bbox_p1.x
            - (fresh strawbox true (-(1 / 2 ^ 30)) 0).bbox_p1.x| ≤ 65 / 2)
      ∧ (spreadHit 0 edge_pair).block 1 = some (burn (fresh strawbox true (65 / 2) 0))
      ∧ (burn (fresh strawbox true (65 / 2) 0)).state = State.STATE_BURNING := by
  refine ⟨rfl, rfl, rfl, rfl, ?_, ?_, rfl⟩
  · norm_num [fresh, abs_le]
  · rw [spreadHit_block 0 1 edge_pair (fresh strawbox true (-(1 / 2 ^ 30)) 0)
      (fresh strawbox true (65 / 2) 0) rfl rfl]
    have hx : (65 / 2 : ℚ) - -(1 / 2 ^ 30) = 65 / 2 + 1 / 2 ^ 30 := by ring
    have c : (fresh strawbox true (-(1 / 2 ^ 30)) 0).linked = true ∧ 1 ≠ 0
        ∧ (fresh strawbox true (65 / 2) 0).state = State.STATE_NORMAL
        ∧ near (fresh strawbox true (-(1 / 2 ^ 30)) 0) (fresh strawbox true (65 / 2) 0) := by
      refine ⟨rfl, by decide, rfl, ?_, ?_⟩
      · show |round_f32 ((65 / 2 : ℚ) - -(1 / 2 ^ 30))| ≤ 65 / 2
        rw [hx, round_f32_just_above]
        norm_num [abs_le]
      · exact round_f32_abs_le _ (by norm_num [fresh, WeakBlock.get_pos, abs_le])
    rw [if_pos c]

/-- C3, amended: after `spreadHit` on a linked block A, A is unchanged, and a
sibling is BURNING exactly when it was BURNING already or it was NORMAL with
both anchor-corner differences to A, as the `float` subtraction rounds them, at
most 32.5 (= 65/2) in absolute value; a sibling that is not NORMAL and within
that range is left as it was. A NORMAL sibling whose exact differences are at
most 32.5 is always within that range. The sibling's `linked` flag and sprite
are not consulted, and no sibling is ignited through another sibling. -/
theorem C3_spreadHit_rounded_characterisation (s : Sector) (a j : Nat) (A b : WeakBlock)
    (hA : s.block a = some A) (hl : A.linked = true) (hb : s.block j = some b)
    (hne : j ≠ a) :
    (spreadHit a s).block a = some A
      ∧ ∃ b', (spreadHit a s).block j = some b'
        ∧ (b'.state = State.STATE_BURNING ↔
            b.state = State.STATE_BURNING
              ∨ (b.state = State.STATE_NORMAL
                  ∧ |round_f32 (b.bbox_p1.x - A.bbox_p1.x)| ≤ 65 / 2
                  ∧ |round_f32 (b.bbox_p1.y - A.bbox_p1.y)| ≤ 65 / 2))
        ∧ (¬ (b.state = State.STATE_NORMAL
                ∧ |round_f32 (b.bbox_p1.x - A.bbox_p1.x)| ≤ 65 / 2
                ∧ |round_f32 (b.bbox_p1.y - A.bbox_p1.y)| ≤ 65 / 2) → b' = b)
        ∧ (b.state = State.STATE_NORMAL → |b.bbox_p1.x - A.bbox_p1.x| ≤ 65 / 2 →
            |b.bbox_p1.y - A.bbox_p1.y| ≤ 65 / 2 → b'.state = State.STATE_BURNING) := by
  constructor
  · rw [spreadHit_block a a s A A hA hA]
    have e : ¬ (A.linked = true ∧ a ≠ a ∧ A.state = State.STATE_NORMAL ∧ near A A) :=
      fun c => c.2.1 rfl
    rw [if_neg e]
  · rw [spreadHit_block a j s A b hA hb]
    by_cases c : b.state = State.STATE_NORMAL ∧ near A b
    · refine ⟨burn b, by rw [if_pos ⟨hl, hne, c⟩], ?_, ?_, fun _ _ _ => rfl⟩
      · exact ⟨fun _ => Or.inr c, fun _ => rfl⟩
      · intro hn
        exact absurd c hn
    · refine ⟨b, by rw [if_neg (fun k => c k.2.2)], ?_, fun _ => rfl, ?_⟩
      · constructor
        · exact fun hs => Or.inl hs
        · intro hs
          rcases hs with hs | hs
          · exact hs
          · exact absurd hs c
      · intro hs hx hy
        exact absurd ⟨hs, near_of_exact A b hx hy⟩ c

/-- In `quad` the scan from the first block ignites the sibling at (32.5, 32.5)
and leaves the siblings at (33, 0) and (65, 32.5) as they were. -/
theorem C3_spreadHit_rounded_characterisation_witness :
    (∃ b', (spreadHit 0 quad).block 1 = some b' ∧ b'.state = State.STATE_BURNING)
      ∧ (spreadHit 0 quad).block 2 = some (fresh strawbox true 33 0)
      ∧ (spreadHit 0 quad).block 3 = some (fresh strawbox true 65 (65 / 2))
      ∧ (spreadHit 0 quad).block 0 = some (fresh strawbox true 0 0) := by
  have h1 := C3_spreadHit_rounded_characterisation quad 0 1 (fresh strawbox true 0 0)
    (fresh meltbox false (65 / 2) (65 / 2)) rfl rfl rfl (by decide)
  have h2 := C3_spreadHit_rounded_characterisation quad 0 2 (fresh strawbox true 0 0)
    (fresh strawbox true 33 0) rfl rfl rfl (by decide)
  have h3 := C3_spreadHit_rounded_characterisation quad 0 3 (fresh strawbox true 0 0)
    (fresh strawbox true 65 (65 / 2)) rfl rfl rfl (by decide)
  have e33 : (33 : ℚ) - 0 = 33 := by norm_num
  have e65 : (65 : ℚ) - 0 = 65 := by norm_num
  refine ⟨?_, ?_, ?_, h1.1⟩
  · obtain ⟨b', hb', _, _, hexact⟩ := h1.2
    refine ⟨b', hb', hexact rfl ?_ ?_⟩ <;> norm_num [fresh, abs_le]
  · obtain ⟨b', hb', _, hkeep, _⟩ := h2.2
    rw [hb', hkeep ?_]
    intro c
    have hx : |round_f32 ((33 : ℚ) - 0)| ≤ 65 / 2 := c.2.1
    rw [e33, round_f32_33] at hx
    norm_num [abs_le] at hx
  · obtain ⟨b', hb', _, hkeep, _⟩ := h3.2
    rw [hb', hkeep ?_]
    intro c
    have hx : |round_f32 ((65 : ℚ) - 0)| ≤ 65 / 2 := c.2.1
    rw [e65, round_f32_65] at hx
    norm_num [abs_le] at hx

/-- C4, as stated, fails: in `two_straw` the first block is linked and NORMAL and
the second is a NORMAL sibling at offset (32, 0); after the first is ignited (by
`startBurning`, by a fire bullet or by an explosion) it is BURNING and the
sibling is still NORMAL. -/
theorem C4_counterexample :
    two_straw.block 0 = some (fresh strawbox true 0 0)
      ∧ (fresh strawbox true 0 0).linked = true
      ∧ (fresh strawbox true 0 0).state = State.STATE_NORMAL
      ∧ two_straw.block 1 = some (fresh strawbox true 32 0)
      ∧ (fresh strawbox true 32 0).state = State.STATE_NORMAL
      ∧ |(fresh strawbox true 0 0).bbox_p1.x - (fresh strawbox true 32 0).bbox_p1.x| ≤ 65 / 2
      ∧ |(fresh strawbox true 0 0).bbox_p1.y - (fresh strawbox true 32 0).bbox_p1.y| ≤ 65 / 2
      ∧ (startBurning 0 two_straw).block 0 = some (burn (fresh strawbox true 0 0))
      ∧ (burn (fresh strawbox true 0 0)).state = State.STATE_BURNING
      ∧ (startBurning 0 two_straw).block 1 = some (fresh strawbox true 32 0)
      ∧ (collision_bullet 0 fire_bullet hit_left two_straw).2.1.block 1
          = some (fresh strawbox true 32 0)
      ∧ (collision 0 GameObject.explosion hit_left two_straw).2.1.block 1
          = some (fresh strawbox true 32 0) := by
  refine ⟨rfl, rfl, rfl, rfl, rfl, ?_, ?_, rfl, rfl, rfl, rfl, rfl⟩ <;>
    norm_num [fresh, abs_le]

/-- C4, amended: igniting a linked NORMAL block A (a fire-bullet contact and an
explosion contact both do exactly what `startBurning` does) makes A BURNING and
changes no sibling; the propagation runs in the `update` in which A's burn
animation is done: after that update every sibling that was NORMAL with both
anchor-corner differences to A at most 32.5 is BURNING, in particular one at
offset (32.5, 32.5), and a sibling at offset (33, 0) is unchanged. -/
theorem C4_propagation_when_burn_animation_done (s : Sector) (a j : Nat) (A B : WeakBlock)
    (rnd : Draws) (hit : CollisionHit) (bullet : Bullet)
    (hA : s.block a = some A) (hl : A.linked = true) (hs : A.state = State.STATE_NORMAL)
    (hB : s.block j = some B) (hne : j ≠ a) (hf : bullet.type = BonusType.FIRE_BONUS) :
    (collision_bullet a bullet hit s).2.1 = startBurning a s
      ∧ (collision a (GameObject.bullet bullet) hit s).2.1 = startBurning a s
      ∧ (collision a GameObject.explosion hit s).2.1 = startBurning a s
      ∧ (∃ A', (startBurning a s).block a = some A' ∧ A'.state = State.STATE_BURNING)
      ∧ (startBurning a s).block j = some B
      ∧ (B.state = State.STATE_NORMAL → |A.bbox_p1.x - B.bbox_p1.x| ≤ 65 / 2 →
          |A.bbox_p1.y - B.bbox_p1.y| ≤ 65 / 2 →
          ∃ B', (update a rnd true (startBurning a s)).block j = some B'
            ∧ B'.state = State.STATE_BURNING)
      ∧ (B.state = State.STATE_NORMAL →
          B.bbox_p1 = ⟨A.bbox_p1.x + 65 / 2, A.bbox_p1.y + 65 / 2⟩ →
          ∃ B', (update a rnd true (startBurning a s)).block j = some B'
            ∧ B'.state = State.STATE_BURNING)
      ∧ (B.bbox_p1 = ⟨A.bbox_p1.x + 33, A.bbox_p1.y⟩ →
          (update a rnd true (startBurning a s)).block j = some B) := by
  have hne' : a ≠ j := fun e => hne e.symm
  have hA1 : (startBurning a s).block a = some (burn A) := by
    rw [startBurning_block_self s a A hA, if_pos hs]
  have hB1 : (startBurning a s).block j = some B := by
    rw [startBurning_block_ne s a j hne', hB]
  have hu := update_block_ne a j rnd true (startBurning a s) (burn A) B hA1 hB1 hne
  have hnear : ∀ (_ : B.state = State.STATE_NORMAL) (_ : near A B),
      ∃ B', (update a rnd true (startBurning a s)).block j = some B'
        ∧ B'.state = State.STATE_BURNING := by
    intro h1 h2
    refine ⟨burn B, ?_, rfl⟩
    rw [hu, if_pos ⟨rfl, rfl, hl, h1, h2⟩]
  refine ⟨?_, ?_, ?_, ⟨burn A, hA1, rfl⟩, hB1, ?_, ?_, ?_⟩
  · rw [collision_bullet_fire_normal a bullet hit s A hA hs hf]
  · rw [collision_bullet_normal a bullet hit s A hA hs,
      collision_bullet_fire_normal a bullet hit s A hA hs hf]
  · rw [collision_explosion_normal a hit s A hA hs]
  · intro h1 hx hy
    apply hnear h1
    apply near_of_exact A B
    · rw [abs_sub_comm]; exact hx
    · rw [abs_sub_comm]; exact hy
  · intro h1 hp
    apply hnear h1
    apply near_of_exact A B <;> rw [hp] <;> norm_num [abs_le]
  · intro hp
    rw [hu]
    have e : ¬ ((burn A).state = State.STATE_BURNING ∧ true = true ∧ (burn A).linked = true
        ∧ B.state = State.STATE_NORMAL ∧ near (burn A) B) := by
      intro c
      have hx : |round_f32 (B.get_pos.x - (burn A).bbox_p1.x)| ≤ 65 / 2 := c.2.2.2.2.1
      unfold WeakBlock.get_pos at hx
      rw [hp] at hx
      have e2 : (burn A).bbox_p1.x = A.bbox_p1.x := rfl
      have e3 : A.bbox_p1.x + 33 - A.bbox_p1.x = 33 := by ring
      rw [e2] at hx
      simp only [e3, round_f32_33] at hx
      norm_num [abs_le] at hx
    rw [if_neg e]

/-- In `two_straw`, a fire bullet on the first block leaves the second NORMAL, and
the update that ends the first block's burn animation makes it BURNING. -/
theorem C4_propagation_when_burn_animation_done_witness :
    (collision_bullet 0 fire_bullet hit_left two_straw).2.1 = startBurning 0 two_straw
      ∧ (startBurning 0 two_straw).block 1 = some (fresh strawbox true 32 0)
      ∧ ∃ B', (update 0 draws0 true (startBurning 0 two_straw)).block 1 = some B'
          ∧ B'.state = State.STATE_BURNING :=
  have h := C4_propagation_when_burn_animation_done two_straw 0 1 (fresh strawbox true 0 0)
    (fresh strawbox true 32 0) draws0 hit_left fire_bullet rfl rfl rfl rfl (by decide) rfl
  ⟨h.1, h.2.2.2.2.1,
    h.2.2.2.2.2.1 rfl (by norm_num [fresh, abs_le]) (by norm_num [fresh, abs_le])⟩

/-- C5: an `update` of a BURNING block whose burn animation is done leaves the
block DISINTEGRATING with the disabled collision group, and leaves at every
sibling what the scan `spreadHit` from that block leaves there; after it,
whatever calls follow, the block is DISINTEGRATING and a further `update` of it
changes no sibling, so the block propagates once. -/
theorem C5_burn_end_propagates_once (s : Sector) (i : Nat) (A : WeakBlock) (rnd : Draws)
    (hA : s.block i = some A) (hs : A.state = State.STATE_BURNING) :
    (∃ A', (update i rnd true s).block i = some A'
        ∧ A'.state = State.STATE_DISINTEGRATING
        ∧ A'.group = CollisionGroup.COLGROUP_DISABLED)
      ∧ (∀ (j : Nat) (B : WeakBlock), s.block j = some B → j ≠ i →
          (update i rnd true s).block j = (spreadHit i s).block j)
      ∧ (∀ (ops : List Op) (rnd' : Draws) (ad : Bool),
          (∃ A', (run ops (update i rnd true s)).block i = some A'
            ∧ A'.state = State.STATE_DISINTEGRATING)
          ∧ ∀ (j : Nat) (B : WeakBlock), (run ops (update i rnd true s)).block j = some B →
              j ≠ i →
              (update i rnd' ad (run ops (update i rnd true s))).block j = some B) := by
  have h1 : (update i rnd true s).block i = some (disable (disintegrate A rnd)) := by
    rw [update_block_self i rnd true s A hA, hs]
    rfl
  refine ⟨⟨_, h1, rfl, rfl⟩, ?_, ?_⟩
  · intro j B hB hne
    rw [update_block_ne i j rnd true s A B hA hB hne, spreadHit_block i j s A B hA hB]
    by_cases c : A.linked = true ∧ B.state = State.STATE_NORMAL ∧ near A B
    · rw [if_pos ⟨hs, rfl, c⟩, if_pos ⟨c.1, hne, c.2⟩]
    · rw [if_neg (fun k => c k.2.2), if_neg (fun k => c ⟨k.1, k.2.2⟩)]
  · intro ops rnd' ad
    obtain ⟨A', hA', hs'⟩ := run_keeps_disintegrating ops (update i rnd true s) i _ h1 rfl
    refine ⟨⟨A', hA', hs'⟩, ?_⟩
    intro j B hB hne
    rw [update_block_ne i j rnd' ad _ A' B hA' hB hne]
    have e : ¬ (A'.state = State.STATE_BURNING ∧ ad = true ∧ A'.linked = true
        ∧ B.state = State.STATE_NORMAL ∧ near A' B) := by
      intro c
      rw [hs'] at c
      exact State.noConfusion c.1
    rw [if_neg e]

/-- The scenario of two linked strawbox blocks at offset (32, 0): the first is
ignited by a fire bullet; the update that ends its burn animation leaves it
DISINTEGRATING and non-solid and leaves the second block, which received no
contact, BURNING; a later update of the first block changes nothing there. -/
theorem C5_burn_end_propagates_once_witness :
    (collision_bullet 0 fire_bullet hit_left two_straw).2.1.block 0
        = some (burn (fresh strawbox true 0 0))
      ∧ (collision_bullet 0 fire_bullet hit_left two_straw).2.1.block 1
        = some (fresh strawbox true 32 0)
      ∧ (∃ A', (update 0 draws0 true
            (collision_bullet 0 fire_bullet hit_left two_straw).2.1).block 0 = some A'
          ∧ A'.state = State.STATE_DISINTEGRATING
          ∧ A'.group = CollisionGroup.COLGROUP_DISABLED)
      ∧ (update 0 draws0 true (collision_bullet 0 fire_bullet hit_left two_straw).2.1).block 1
        = some (burn (fresh strawbox true 32 0))
      ∧ (update 0 draws0 true (update 0 draws0 true
          (collision_bullet 0 fire_bullet hit_left two_straw).2.1)).block 1
        = some (burn (fresh strawbox true 32 0)) := by
  have h := C5_burn_end_propagates_once (collision_bullet 0 fire_bullet hit_left two_straw).2.1
    0 (burn (fresh strawbox true 0 0)) draws0 rfl rfl
  have h1 : (update 0 draws0 true
      (collision_bullet 0 fire_bullet hit_left two_straw).2.1).block 1
      = some (burn (fresh strawbox true 32 0)) := by
    rw [h.2.1 1 (fresh strawbox true 32 0) rfl (by decide),
      spreadHit_block 0 1 (collision_bullet 0 fire_bullet hit_left two_straw).2.1
        (burn (fresh strawbox true 0 0)) (fresh strawbox true 32 0) rfl rfl]
    have c : (burn (fresh strawbox true 0 0)).linked = true ∧ 1 ≠ 0
        ∧ (fresh strawbox true 32 0).state = State.STATE_NORMAL
        ∧ near (burn (fresh strawbox true 0 0)) (fresh strawbox true 32 0) :=
      ⟨rfl, by decide, rfl, near_of_exact _ _ (by norm_num [burn, fresh, abs_le])
        (by norm_num [burn, fresh, abs_le])⟩
    rw [if_pos c]
  exact ⟨rfl, rfl, h.1, h1, (h.2.2 [] draws0 true).2 1 _ h1 (by decide)⟩

/-- C6: whatever method is called on an unlinked block A (`startBurning`,
`spreadHit`, `collision_bullet`, `collision`, `update` with the animation done
or not), every sibling of A is after the call exactly what it was before. -/
theorem C6_unlinked_changes_no_sibling (op : Op) (s : Sector) (A : WeakBlock)
    (j : Nat) (B : WeakBlock) (hA : s.block op.target = some A) (hl : A.linked = false)
    (hB : s.block j = some B) (hne : j ≠ op.target) :
    (op.apply s).block j = some B := by
  have hsb : ∀ i, j ≠ i → (startBurning i s).block j = some B := by
    intro i hi
    rw [startBurning_block_ne s i j (fun e => hi e.symm), hB]
  cases op with
  | startBurning i => exact hsb i hne
  | spreadHit i =>
    simp only [Op.apply]
    rw [spreadHit_unlinked i s A hA hl, hB]
  | collision_bullet i bullet hit =>
    simp only [Op.apply]
    rcases collision_bullet_sector i bullet hit s with e | e
    · rw [e, hB]
    · rw [e]; exact hsb i hne
  | collision i other hit =>
    simp only [Op.apply]
    rcases collision_sector i other hit s with e | e
    · rw [e, hB]
    · rw [e]; exact hsb i hne
  | update i rnd ad =>
    simp only [Op.apply]
    rw [update_block_ne i j rnd ad s A B hA hB hne]
    have e : ¬ (A.state = State.STATE_BURNING ∧ ad = true ∧ A.linked = true
        ∧ B.state = State.STATE_NORMAL ∧ near A B) := by
      intro c
      rw [hl] at c
      exact Bool.noConfusion c.2.2.1
    rw [if_neg e]

/-- An unlinked burning meltbox next to a NORMAL strawbox: the update that ends
the meltbox's burn animation leaves the strawbox NORMAL. -/
theorem C6_unlinked_changes_no_sibling_witness :
    (burn (fresh meltbox false 0 0)).linked = false
      ∧ ((Op.update 0 draws0 true).apply melt_pair).block 1 = some (fresh strawbox true 32 0) :=
  ⟨rfl, C6_unlinked_changes_no_sibling (Op.update 0 draws0 true) melt_pair
    (burn (fresh meltbox false 0 0)) 1 (fresh strawbox true 32 0) rfl rfl rfl (by decide)⟩

/-- C7, as stated, fails: a fire bullet on the NORMAL block of `custom_single`,
whose sprite is neither strawbox nor meltbox, leaves the block BURNING and the
bullet removed, with one NORMAL-to-BURNING transition, but no sound has been
played. -/
theorem C7_counterexample :
    custom_single.block 0 = some (fresh custom_sprite true 0 0)
      ∧ (fresh custom_sprite true 0 0).state = State.STATE_NORMAL
      ∧ fire_contact 0 (Op.collision_bullet 0 fire_bullet hit_left) = true
      ∧ state_of (run [Op.collision_bullet 0 fire_bullet hit_left] custom_single) 0
          = some State.STATE_BURNING
      ∧ (collision_bullet 0 fire_bullet hit_left custom_single).2.2.removed = true
      ∧ ignitions 0 [Op.collision_bullet 0 fire_bullet hit_left] custom_single = 1
      ∧ custom_single.played = []
      ∧ (run [Op.collision_bullet 0 fire_bullet hit_left] custom_single).played = [] := by
  refine ⟨rfl, rfl, rfl, rfl, rfl, rfl, rfl, ?_⟩
  decide

/-- C7, amended: a fire-bullet contact on a NORMAL block, through
`collision_bullet` or through `collision`, leaves the block BURNING and the
bullet removed; and after one or more fire-bullet contacts on an initially
NORMAL block, with no other call in between, the block is BURNING, exactly one
call took it from NORMAL to BURNING, and the sound log has grown by the sizzle
sound for a meltbox sprite, by the fire sound for a strawbox sprite, and by
nothing for any other sprite. -/
theorem C7_fire_contacts_ignite_once (s : Sector) (i : Nat) (wb : WeakBlock)
    (bullet : Bullet) (hit : CollisionHit) (op : Op) (ops : List Op)
    (h : s.block i = some wb) (hs : wb.state = State.STATE_NORMAL)
    (hf : bullet.type = BonusType.FIRE_BONUS)
    (hall : ∀ o ∈ op :: ops, fire_contact i o = true) :
    (collision_bullet i bullet hit s).2.1.block i = some (burn wb)
      ∧ (burn wb).state = State.STATE_BURNING
      ∧ (collision_bullet i bullet hit s).2.2 = bullet.remove_me
      ∧ (collision i (GameObject.bullet bullet) hit s).2.1.block i = some (burn wb)
      ∧ (collision i (GameObject.bullet bullet) hit s).2.2 = GameObject.bullet bullet.remove_me
      ∧ bullet.remove_me.removed = true
      ∧ (run (op :: ops) s).block i = some (burn wb)
      ∧ ignitions i (op :: ops) s = 1
      ∧ (run (op :: ops) s).played = s.played ++ ignition_sounds wb.sprite_name := by
  have hb : (startBurning i s).block i = some (burn wb) := by
    rw [startBurning_block_self s i wb h, if_pos hs]
  have hop : op.apply s = startBurning i s :=
    fire_contact_normal i op s wb h hs (hall op (List.mem_cons_self op ops))
  have hrest := fire_contacts_not_normal i ops (startBurning i s) (burn wb) hb
    (by simp [burn]) (fun o ho => hall o (List.mem_cons_of_mem op ho))
  have hrun : run (op :: ops) s = startBurning i s := by
    simp only [run, List.foldl_cons]
    rw [hop]
    exact hrest.1
  refine ⟨?_, rfl, ?_, ?_, ?_, rfl, ?_, ?_, ?_⟩
  · rw [collision_bullet_fire_normal i bullet hit s wb h hs hf]
    exact hb
  · rw [collision_bullet_fire_normal i bullet hit s wb h hs hf]
  · rw [collision_bullet_normal i bullet hit s wb h hs,
      collision_bullet_fire_normal i bullet hit s wb h hs hf]
    exact hb
  · rw [collision_bullet_normal i bullet hit s wb h hs,
      collision_bullet_fire_normal i bullet hit s wb h hs hf]
  · rw [hrun]
    exact hb
  · simp only [ignitions]
    rw [hop, hrest.2]
    have c : state_of s i = some State.STATE_NORMAL
        ∧ state_of (startBurning i s) i = some State.STATE_BURNING := by
      simp [state_of, h, hs, hb, burn]
    rw [if_pos c]
  · rw [hrun]
    exact startBurning_played s i wb h hs

/-- Three fire-bullet contacts in a row on the first block of `two_straw`, the
second of them through `collision`: one ignition, the fire sound once. -/
theorem C7_fire_contacts_ignite_once_witness :
    (run [Op.collision_bullet 0 fire_bullet hit_left,
          Op.collision 0 (GameObject.bullet fire_bullet) hit_left,
          Op.collision_bullet 0 fire_bullet hit_left] two_straw).block 0
        = some (burn (fresh strawbox true 0 0))
      ∧ ignitions 0 [Op.collision_bullet 0 fire_bullet hit_left,
          Op.collision 0 (GameObject.bullet fire_bullet) hit_left,
          Op.collision_bullet 0 fire_bullet hit_left] two_straw = 1
      ∧ (run [Op.collision_bullet 0 fire_bullet hit_left,
          Op.collision 0 (GameObject.bullet fire_bullet) hit_left,
          Op.collision_bullet 0 fire_bullet hit_left] two_straw).played
        = [] ++ ignition_sounds strawbox
      ∧ ignition_sounds strawbox = ["sounds/fire.ogg"] :=
  have h := C7_fire_contacts_ignite_once two_straw 0 (fresh strawbox true 0 0) fire_bullet
    hit_left (Op.collision_bullet 0 fire_bullet hit_left)
    [Op.collision 0 (GameObject.bullet fire_bullet) hit_left,
      Op.collision_bullet 0 fire_bullet hit_left] rfl rfl rfl (by decide)
  ⟨h.2.2.2.2.2.2.1, h.2.2.2.2.2.2.2.1, h.2.2.2.2.2.2.2.2, by decide⟩

/-- C8: a contact with a bullet that is not a fire bullet, delivered through
`collision_bullet` or through `collision`, leaves the whole sector unchanged,
whatever the block's state, sprite and `linked` flag: the block's state,
collision group and removal flag and every sibling are what they were. -/
theorem C8_other_bullet_changes_nothing (s : Sector) (i : Nat) (bullet : Bullet)
    (hit : CollisionHit) (hf : bullet.type ≠ BonusType.FIRE_BONUS) :
    (collision_bullet i bullet hit s).2.1 = s
      ∧ (collision i (GameObject.bullet bullet) hit s).2.1 = s := by
  have h1 : (collision_bullet i bullet hit s).2.1 = s := by
    cases hb : s.block i with
    | none => simp [collision_bullet, hb]
    | some wb =>
      cases hst : wb.state with
      | STATE_NORMAL => simp [collision_bullet, hb, hst, hf]
      | STATE_BURNING => simp [collision_bullet, hb, hst]
      | STATE_DISINTEGRATING => simp [collision_bullet, hb, hst]
  refine ⟨h1, ?_⟩
  cases hb : s.block i with
  | none => simp [collision, hb]
  | some wb =>
    by_cases hst : wb.state = State.STATE_NORMAL
    · rw [collision_bullet_normal i bullet hit s wb hb hst]
      exact h1
    · rw [collision_not_badguy_not_normal i _ hit s wb hb hst (fun g e => by cases e)]

/-- An ice bullet on the first block of `two_straw` changes nothing in the sector. -/
theorem C8_other_bullet_changes_nothing_witness :
    ice_bullet.type ≠ BonusType.FIRE_BONUS
      ∧ (collision_bullet 0 ice_bullet hit_left two_straw).2.1 = two_straw
      ∧ (collision 0 (GameObject.bullet ice_bullet) hit_left two_straw).2.1 = two_straw :=
  ⟨by decide, C8_other_bullet_changes_nothing two_straw 0 ice_bullet hit_left (by decide)⟩

/-- C9: a contact with an explosion leaves a NORMAL block BURNING, and leaves
the sector (the block's state, group and removal flag, the played sounds, every
sibling) and the explosion unchanged when the block is BURNING or
DISINTEGRATING. -/
theorem C9_explosion_contact (s : Sector) (i : Nat) (wb : WeakBlock) (hit : CollisionHit)
    (h : s.block i = some wb) :
    (wb.state = State.STATE_NORMAL →
        ∃ wb', (collision i GameObject.explosion hit s).2.1.block i = some wb'
          ∧ wb'.state = State.STATE_BURNING)
      ∧ (wb.state = State.STATE_BURNING ∨ wb.state = State.STATE_DISINTEGRATING →
          collision i GameObject.explosion hit s
            = (HitResponse.FORCE_MOVE, s, GameObject.explosion)) := by
  constructor
  · intro hs
    rw [collision_explosion_normal i hit s wb h hs]
    exact ⟨burn wb, by rw [startBurning_block_self s i wb h, if_pos hs], rfl⟩
  · intro hs
    apply collision_not_badguy_not_normal i _ hit s wb h _ (fun g e => by cases e)
    rcases hs with hs | hs <;> rw [hs] <;> decide

/-- An explosion ignites the first block of `two_straw`, and changes nothing once
the block is burning. -/
theorem C9_explosion_contact_witness :
    (∃ wb', (collision 0 GameObject.explosion hit_left two_straw).2.1.block 0 = some wb'
        ∧ wb'.state = State.STATE_BURNING)
      ∧ collision 0 GameObject.explosion hit_left straw_burning
          = (HitResponse.FORCE_MOVE, straw_burning, GameObject.explosion) :=
  ⟨(C9_explosion_contact two_straw 0 (fresh strawbox true 0 0) hit_left rfl).1 rfl,
    (C9_explosion_contact straw_burning 0 (burn (fresh strawbox true 0 0)) hit_left rfl).2
      (Or.inl rfl)⟩

/-- C10: a contact with a `BadGuy` invokes the bad guy's `ignite()`, once, when
the block is BURNING and its sprite is the strawbox one, and does not invoke it
otherwise (a BURNING block with another sprite, a NORMAL or DISINTEGRATING
block); `k` contacts in a row of a qualifying block invoke it `k` times; and
the contact leaves the sector, the block included, unchanged. -/
theorem C10_badguy_contact (s : Sector) (i : Nat) (wb : WeakBlock) (g : BadGuy)
    (hit : CollisionHit) (hits : List CollisionHit) (h : s.block i = some wb) :
    (wb.state = State.STATE_BURNING ∧ wb.sprite_name = strawbox →
        (collision i (GameObject.badguy g) hit s).2.2
            = GameObject.badguy ⟨g.ignite_calls + 1⟩
          ∧ collide_all i hits s (GameObject.badguy g)
            = (s, GameObject.badguy ⟨g.ignite_calls + hits.length⟩))
      ∧ (¬ (wb.state = State.STATE_BURNING ∧ wb.sprite_name = strawbox) →
          (collision i (GameObject.badguy g) hit s).2.2 = GameObject.badguy g
            ∧ collide_all i hits s (GameObject.badguy g) = (s, GameObject.badguy g))
      ∧ (collision i (GameObject.badguy g) hit s).2.1 = s := by
  have h1 := collision_badguy i g hit s wb h
  have h2 := collide_all_badguy i hits s wb h g
  refine ⟨?_, ?_, ?_⟩
  · intro c
    rw [h1, h2, if_pos c, if_pos c]
    exact ⟨rfl, rfl⟩
  · intro c
    rw [h1, h2, if_neg c, if_neg c]
    exact ⟨rfl, rfl⟩
  · rw [h1]

/-- A bad guy touching the burning strawbox of `straw_burning` three times is
ignited three times; touching the burning meltbox of `melt_pair` it is not. -/
theorem C10_badguy_contact_witness :
    collide_all 0 [hit_left, hit_left, hit_left] straw_burning (GameObject.badguy ⟨0⟩)
        = (straw_burning, GameObject.badguy ⟨3⟩)
      ∧ (collision 0 (GameObject.badguy ⟨0⟩) hit_left straw_burning).2.2
        = GameObject.badguy ⟨1⟩
      ∧ (collision 0 (GameObject.badguy ⟨0⟩) hit_left melt_pair).2.2
        = GameObject.badguy ⟨0⟩ :=
  have h1 := (C10_badguy_contact straw_burning 0 (burn (fresh strawbox true 0 0)) ⟨0⟩
    hit_left [hit_left, hit_left, hit_left] rfl).1 ⟨rfl, rfl⟩
  have h2 := (C10_badguy_contact melt_pair 0 (burn (fresh meltbox false 0 0)) ⟨0⟩
    hit_left [] rfl).2.1 (by decide)
  ⟨h1.2, h1.1, h2.1⟩

/-- C11: a call raises a block's removal flag exactly when it is an `update` of
that block, in state DISINTEGRATING, with the animation done; no other call
(`startBurning`, `spreadHit`, `collision_bullet`, `collision`, `update` in
another state or with the animation not done, or any call on another block)
raises it. And in every sector reached from construction by a sequence of
calls, a block that is NORMAL or BURNING is not removed. -/
theorem C11_removed_exactly_by_final_update (op : Op) (s : Sector) (j : Nat) (b : WeakBlock)
    (cfgs : List (ReaderMapping × LightSprite)) (ops : List Op) (k : Nat) (c : WeakBlock)
    (h : s.block j = some b) (hr : b.removed = false)
    (hc : (run ops (constructed cfgs)).block k = some c) :
    (∃ b', (op.apply s).block j = some b'
        ∧ (b'.removed = true ↔
            b.state = State.STATE_DISINTEGRATING ∧ ∃ rnd, op = Op.update j rnd true))
      ∧ (c.state = State.STATE_NORMAL ∨ c.state = State.STATE_BURNING → c.removed = false) := by
  constructor
  · obtain ⟨b', hb', hiff⟩ := apply_removed op s j b h
    refine ⟨b', hb', hiff.trans ?_⟩
    constructor
    · rintro (e | e)
      · rw [hr] at e
        cases e
      · exact e
    · exact fun e => Or.inr e
  · intro hs
    have hcons := (consistent_reachable cfgs ops k c hc).1
    cases hrem : c.removed with
    | false => rfl
    | true =>
      have hd := hcons hrem
      rcases hs with hs | hs <;> rw [hs] at hd <;> cases hd

/-- The update that ends the animation of the block of `straw_disintegrating`
removes it, and a block constructed from the empty configuration and then
ignited is not removed. -/
theorem C11_removed_exactly_by_final_update_witness :
    (∃ b', ((Op.update 0 draws0 true).apply straw_disintegrating).block 0 = some b'
        ∧ b'.removed = true)
      ∧ (burn (WeakBlock.construct empty_config plain_light).1).removed = false := by
  have h := C11_removed_exactly_by_final_update (Op.update 0 draws0 true)
    straw_disintegrating 0 (disable (disintegrate (burn (fresh strawbox true 0 0)) draws0))
    [(empty_config, plain_light)] [Op.startBurning 0] 0
    (burn (WeakBlock.construct empty_config plain_light).1) rfl rfl rfl
  obtain ⟨b', hb', hiff⟩ := h.1
  exact ⟨⟨b', hb', hiff.mpr ⟨rfl, draws0, rfl⟩⟩, h.2 (Or.inr rfl)⟩

/-- C12: in every sector reached from construction by a sequence of calls, a
block that is NORMAL or BURNING is in the solid group `COLGROUP_STATIC`, and a
block is in the disabled group `COLGROUP_DISABLED` if and only if it is
DISINTEGRATING. -/
theorem C12_group_follows_state (cfgs : List (ReaderMapping × LightSprite)) (ops : List Op)
    (j : Nat) (b : WeakBlock) (h : (run ops (constructed cfgs)).block j = some b) :
    (b.state = State.STATE_NORMAL ∨ b.state = State.STATE_BURNING →
        b.group = CollisionGroup.COLGROUP_STATIC)
      ∧ (b.group = CollisionGroup.COLGROUP_DISABLED ↔
          b.state = State.STATE_DISINTEGRATING) := by
  obtain ⟨_, h2, h3⟩ := consistent_reachable cfgs ops j b h
  refine ⟨h2, ?_, h3⟩
  intro hg
  cases hs : b.state with
  | STATE_NORMAL =>
    rw [h2 (Or.inl hs)] at hg
    cases hg
  | STATE_BURNING =>
    rw [h2 (Or.inr hs)] at hg
    cases hg
  | STATE_DISINTEGRATING => rfl

/-- A block constructed from the empty configuration, ignited, and updated
until its burn animation is done is in the disabled group. -/
theorem C12_group_follows_state_witness :
    (run [Op.startBurning 0, Op.update 0 draws0 true]
        (constructed [(empty_config, plain_light)])).block 0
        = some (disable (disintegrate (burn (WeakBlock.construct empty_config plain_light).1)
            draws0))
      ∧ (disable (disintegrate (burn (WeakBlock.construct empty_config plain_light).1)
            draws0)).group = CollisionGroup.COLGROUP_DISABLED :=
  have hb : (run [Op.startBurning 0, Op.update 0 draws0 true]
      (constructed [(empty_config, plain_light)])).block 0
      = some (disable (disintegrate (burn (WeakBlock.construct empty_config plain_light).1)
          draws0)) := by
    have h0 : (startBurning 0 (constructed [(empty_config, plain_light)])).block 0
        = some (burn (WeakBlock.construct empty_config plain_light).1) := rfl
    have h1 := update_block_self 0 draws0 true _ _ h0
    simpa [run, Op.apply, burn] using h1
  ⟨hb, (C12_group_follows_state [(empty_config, plain_light)]
    [Op.startBurning 0, Op.update 0 draws0 true] 0 _ hb).2.mpr rfl⟩

/-- C13: whatever the block's state, the other object and the hit, `collision`
and `collision_bullet` both return `FORCE_MOVE`. -/
theorem C13_always_force_move (this : Nat) (other : GameObject) (bullet : Bullet)
    (hit : CollisionHit) (s : Sector) :
    (collision this other hit s).1 = HitResponse.FORCE_MOVE
      ∧ (collision_bullet this bullet hit s).1 = HitResponse.FORCE_MOVE := by
  have hb : ∀ b : Bullet, (collision_bullet this b hit s).1 = HitResponse.FORCE_MOVE := by
    intro b
    cases h : s.block this with
    | none => simp [collision_bullet, h]
    | some wb =>
      cases hs : wb.state with
      | STATE_NORMAL =>
        by_cases hf : b.type = BonusType.FIRE_BONUS
        · simp [collision_bullet, h, hs, hf]
        · simp [collision_bullet, h, hs, hf]
      | STATE_BURNING => simp [collision_bullet, h, hs]
      | STATE_DISINTEGRATING => simp [collision_bullet, h, hs]
  refine ⟨?_, hb bullet⟩
  cases h : s.block this with
  | none => simp [collision, h]
  | some wb =>
    cases hs : wb.state with
    | STATE_NORMAL =>
      cases other with
      | bullet b =>
        rw [collision_bullet_normal this b hit s wb h hs]
        exact hb b
      | explosion => simp [collision, h, hs]
      | badguy g => simp [collision, h, hs]
      | plain => simp [collision, h, hs]
    | STATE_BURNING =>
      by_cases hn : wb.sprite_name = strawbox
      · cases other <;> simp [collision, h, hs, hn]
      · simp [collision, h, hs, hn]
    | STATE_DISINTEGRATING => simp [collision, h, hs]

/-- C14, as stated, fails: on the burning block of `straw_burning` and on the
disintegrating block of `straw_disintegrating`, `collision_bullet` leaves a fire
bullet not removed and an ice bullet not ricocheted. -/
theorem C14_counterexample :
    straw_burning.block 0 = some (burn (fresh strawbox true 0 0))
      ∧ (burn (fresh strawbox true 0 0)).state = State.STATE_BURNING
      ∧ fire_bullet.type = BonusType.FIRE_BONUS
      ∧ (collision_bullet 0 fire_bullet hit_left straw_burning).2.2.removed = false
      ∧ ice_bullet.type ≠ BonusType.FIRE_BONUS
      ∧ (collision_bullet 0 ice_bullet hit_left straw_burning).2.2.ricochets = []
      ∧ (collision_bullet 0 fire_bullet hit_left straw_disintegrating).2.2.removed = false
      ∧ (collision_bullet 0 ice_bullet hit_left straw_disintegrating).2.2.ricochets = [] := by
  refine ⟨rfl, rfl, rfl, rfl, ?_, rfl, rfl, rfl⟩
  decide

/-- C14, amended: on a NORMAL block `collision_bullet` marks a fire bullet
removed and makes a bullet of any other kind ricochet off the block with the
hit; on a BURNING or DISINTEGRATING block it leaves a bullet of either kind
untouched, neither removed nor ricocheted. -/
theorem C14_bullets_classified_when_normal (s : Sector) (i : Nat) (wb : WeakBlock)
    (bullet : Bullet) (hit : CollisionHit) (h : s.block i = some wb) :
    (wb.state = State.STATE_NORMAL → bullet.type = BonusType.FIRE_BONUS →
        (collision_bullet i bullet hit s).2.2 = { bullet with removed := true })
      ∧ (wb.state = State.STATE_NORMAL → bullet.type ≠ BonusType.FIRE_BONUS →
          (collision_bullet i bullet hit s).2.2
            = { bullet with ricochets := bullet.ricochets ++ [hit] })
      ∧ (wb.state = State.STATE_BURNING ∨ wb.state = State.STATE_DISINTEGRATING →
          (collision_bullet i bullet hit s).2.2 = bullet) := by
  refine ⟨?_, ?_, ?_⟩
  · intro hs hf
    rw [collision_bullet_fire_normal i bullet hit s wb h hs hf]
    rfl
  · intro hs hf
    simp [collision_bullet, h, hs, hf, Bullet.ricochet]
  · intro hs
    rw [collision_bullet_not_normal i bullet hit s wb h
      (by rcases hs with hs | hs <;> rw [hs] <;> decide)]

/-- On the NORMAL first block of `two_straw` a fire bullet is removed and an ice
bullet ricochets; on the burning block of `straw_burning` the fire bullet is
left as it was. -/
theorem C14_bullets_classified_when_normal_witness :
    (collision_bullet 0 fire_bullet hit_left two_straw).2.2
        = { fire_bullet with removed := true }
      ∧ (collision_bullet 0 ice_bullet hit_left two_straw).2.2
        = { ice_bullet with ricochets := ice_bullet.ricochets ++ [hit_left] }
      ∧ (collision_bullet 0 fire_bullet hit_left straw_burning).2.2 = fire_bullet :=
  ⟨(C14_bullets_classified_when_normal two_straw 0 (fresh strawbox true 0 0) fire_bullet
      hit_left rfl).1 rfl rfl,
    (C14_bullets_classified_when_normal two_straw 0 (fresh strawbox true 0 0) ice_bullet
      hit_left rfl).2.1 rfl (by decide),
    (C14_bullets_classified_when_normal straw_burning 0 (burn (fresh strawbox true 0 0))
      fire_bullet hit_left rfl).2.2 (Or.inl rfl)⟩

/-- C15, as stated, fails: a block constructed with the sprite `custom_sprite`
keeps that sprite, which is neither strawbox nor meltbox; while it is BURNING a
bad guy touching it is not ignited, where the strawbox block in the same state
ignites it; and its ignition plays no sound, where the strawbox block's plays
the fire sound. -/
theorem C15_counterexample :
    (WeakBlock.construct custom_config plain_light).1.sprite_name = custom_sprite
      ∧ custom_sprite ≠ strawbox ∧ custom_sprite ≠ meltbox
      ∧ custom_burning.block 0 = some (burn (fresh custom_sprite true 0 0))
      ∧ (collision 0 (GameObject.badguy ⟨0⟩) hit_left custom_burning).2.2
          = GameObject.badguy ⟨0⟩
      ∧ (collision 0 (GameObject.badguy ⟨0⟩) hit_left straw_burning).2.2
          = GameObject.badguy ⟨1⟩
      ∧ (startBurning 0 custom_single).played = []
      ∧ (startBurning 0 ⟨[fresh strawbox true 0 0], []⟩).played = ["sounds/fire.ogg"] := by
  refine ⟨rfl, ?_, ?_, rfl, rfl, rfl, ?_, ?_⟩ <;> decide

/-- C15, amended: a block whose sprite is neither the strawbox nor the meltbox
one does not ignite a bad guy that touches it while it is BURNING, and its
ignition makes it BURNING with the `burning` action, as for any block, but
plays no sound. A block constructed from a configuration that names such a
sprite keeps it, and preloads no sound, when the configuration does not set
`linked` to false; when the configuration sets `linked` to false the
constructor gives the block the meltbox sprite whatever sprite is named, and
the block is a meltbox: the sizzle sound is preloaded and played at ignition,
and while BURNING it ignites no bad guy. -/
theorem C15_unrecognised_sprite_is_silent (s : Sector) (i : Nat) (wb : WeakBlock)
    (g : BadGuy) (hit : CollisionHit) (lisp : ReaderMapping) (light : LightSprite)
    (h : s.block i = some wb) (h1 : wb.sprite_name ≠ strawbox)
    (h2 : wb.sprite_name ≠ meltbox) :
    (wb.state = State.STATE_BURNING →
        collision i (GameObject.badguy g) hit s
          = (HitResponse.FORCE_MOVE, s, GameObject.badguy g))
      ∧ (wb.state = State.STATE_NORMAL →
          (startBurning i s).block i = some (burn wb)
            ∧ (startBurning i s).played = s.played)
      ∧ (lisp.linked ≠ some false → lisp.sprite.getD strawbox ≠ strawbox →
          lisp.sprite.getD strawbox ≠ meltbox →
          (WeakBlock.construct lisp light).1.sprite_name = lisp.sprite.getD strawbox
            ∧ (WeakBlock.construct lisp light).2 = [])
      ∧ (lisp.linked = some false →
          (WeakBlock.construct lisp light).1.sprite_name = meltbox
            ∧ (WeakBlock.construct lisp light).2 = ["sounds/sizzle.ogg"]
            ∧ (∀ (s' : Sector) (k : Nat),
                s'.block k = some (WeakBlock.construct lisp light).1 →
                (startBurning k s').block k = some (burn (WeakBlock.construct lisp light).1)
                  ∧ (startBurning k s').played = s'.played ++ ["sounds/sizzle.ogg"])
            ∧ (∀ (s' : Sector) (k : Nat),
                s'.block k = some (burn (WeakBlock.construct lisp light).1) →
                collision k (GameObject.badguy g) hit s'
                  = (HitResponse.FORCE_MOVE, s', GameObject.badguy g))) := by
  refine ⟨?_, ?_, ?_, ?_⟩
  · intro _
    rw [collision_badguy i g hit s wb h, if_neg (fun c => h1 c.2)]
  · intro hs
    constructor
    · rw [startBurning_block_self s i wb h, if_pos hs]
    · rw [startBurning_played s i wb h hs]
      simp [ignition_sounds, h1, h2]
  · intro hl k1 k2
    exact ⟨construct_sprite_name_kept lisp light hl,
      construct_preload_unrecognised lisp light hl k1 k2⟩
  · intro hl
    have hc := construct_unlinked lisp light hl
    have hst := construct_state lisp light
    have hne : meltbox ≠ strawbox := by decide
    refine ⟨hc.1, hc.2, ?_, ?_⟩
    · intro s' k hk
      constructor
      · rw [startBurning_block_self s' k _ hk, if_pos hst]
      · rw [startBurning_played s' k _ hk hst, hc.1]
        simp [ignition_sounds]
    · intro s' k hk
      rw [collision_badguy k g hit s' _ hk]
      have hn : (burn (WeakBlock.construct lisp light).1).sprite_name = meltbox := hc.1
      rw [if_neg (fun c => hne (hn.symm.trans c.2))]

/-- The block with sprite `custom_sprite`: constructed, it keeps the sprite and
preloads nothing; ignited, it burns silently; burning, it does not ignite a bad
guy. Constructed with `linked` set to false it is a meltbox and its ignition
plays the sizzle sound. -/
theorem C15_unrecognised_sprite_is_silent_witness :
    collision 0 (GameObject.badguy ⟨0⟩) hit_left custom_burning
        = (HitResponse.FORCE_MOVE, custom_burning, GameObject.badguy ⟨0⟩)
      ∧ (startBurning 0 custom_single).played = custom_single.played
      ∧ (WeakBlock.construct custom_config plain_light).1.sprite_name = custom_sprite
      ∧ (WeakBlock.construct custom_config plain_light).2 = []
      ∧ (WeakBlock.construct custom_unlinked_config plain_light).1.sprite_name = meltbox
      ∧ (startBurning 0 (constructed [(custom_unlinked_config, plain_light)])).played
          = [] ++ ["sounds/sizzle.ogg"] :=
  have hb := C15_unrecognised_sprite_is_silent custom_burning 0
    (burn (fresh custom_sprite true 0 0)) ⟨0⟩ hit_left custom_config plain_light rfl
    (by decide) (by decide)
  have hn := C15_unrecognised_sprite_is_silent custom_single 0
    (fresh custom_sprite true 0 0) ⟨0⟩ hit_left custom_config plain_light rfl
    (by decide) (by decide)
  have hu := (C15_unrecognised_sprite_is_silent custom_single 0
    (fresh custom_sprite true 0 0) ⟨0⟩ hit_left custom_unlinked_config plain_light rfl
    (by decide) (by decide)).2.2.2 rfl
  have hc := hn.2.2.1 (by decide) (by decide) (by decide)
  ⟨hb.1 rfl, (hn.2.1 rfl).2, hc.1, hc.2, hu.1,
    (hu.2.2.1 (constructed [(custom_unlinked_config, plain_light)]) 0 rfl).2⟩

/-- C16: two runs of `update` that start from sectors equal up to the colours of
the light sprites (in particular from the same sector) and draw different
values from the random source end in sectors equal up to those colours: the
played sounds are the same and every block, the updated one and its siblings
alike, has the same state, collision group, removal flag, sprite and sprite
action, position, `linked` flag and light sprite file and blend in both runs. -/
theorem C16_flicker_noninterference (s1 s2 : Sector) (this : Nat) (rnd1 rnd2 : Draws)
    (ad : Bool) (h : s1.erase_colors = s2.erase_colors) :
    (update this rnd1 ad s1).erase_colors = (update this rnd2 ad s2).erase_colors
      ∧ (update this rnd1 ad s1).played = (update this rnd2 ad s2).played
      ∧ ∀ (j : Nat) (b1 : WeakBlock), (update this rnd1 ad s1).block j = some b1 →
          ∃ b2, (update this rnd2 ad s2).block j = some b2
            ∧ b2.state = b1.state ∧ b2.group = b1.group ∧ b2.removed = b1.removed
            ∧ b2.sprite = b1.sprite ∧ b2.sprite_name = b1.sprite_name
            ∧ b2.bbox_p1 = b1.bbox_p1 ∧ b2.linked = b1.linked
            ∧ b2.lightsprite.file = b1.lightsprite.file
            ∧ b2.lightsprite.blend_add = b1.lightsprite.blend_add := by
  have e : (update this rnd1 ad s1).erase_colors = (update this rnd2 ad s2).erase_colors := by
    rw [update_erase_colors this rnd1 rnd1 ad s1, update_erase_colors this rnd2 rnd1 ad s2, h]
  refine ⟨e, by have ep := congrArg Sector.played e; exact ep, ?_⟩
  intro j b1 hb1
  have ej := congrArg (fun t => t.block j) e
  simp only [block_erase_colors, hb1, Option.map_some'] at ej
  cases hb2 : (update this rnd2 ad s2).block j with
  | none =>
    rw [hb2] at ej
    cases ej
  | some b2 =>
    rw [hb2] at ej
    have eb : erase_color b1 = erase_color b2 := Option.some.inj ej
    exact ⟨b2, rfl, (congrArg WeakBlock.state eb).symm, (congrArg WeakBlock.group eb).symm,
      (congrArg WeakBlock.removed eb).symm, (congrArg WeakBlock.sprite eb).symm,
      (congrArg WeakBlock.sprite_name eb).symm, (congrArg WeakBlock.bbox_p1 eb).symm,
      (congrArg WeakBlock.linked eb).symm,
      (congrArg (fun b => b.lightsprite.file) eb).symm,
      (congrArg (fun b => b.lightsprite.blend_add) eb).symm⟩

/-- Two updates of the burning block of `straw_burning` with different draws give
the light sprite different colours and agree on everything else. -/
theorem C16_flicker_noninterference_witness :
    (update 0 draws0 false straw_burning).erase_colors
        = (update 0 draws1 false straw_burning).erase_colors
      ∧ (update 0 draws0 false straw_burning).block 0
        = some (flicker (burn (fresh strawbox true 0 0)) draws0)
      ∧ (update 0 draws1 false straw_burning).block 0
        = some (flicker (burn (fresh strawbox true 0 0)) draws1)
      ∧ (flicker (burn (fresh strawbox true 0 0)) draws0).lightsprite.color.red = 1 / 4
      ∧ (flicker (burn (fresh strawbox true 0 0)) draws1).lightsprite.color.red = 3 / 10 := by
  refine ⟨(C16_flicker_noninterference straw_burning straw_burning 0 draws0 draws1 false
    rfl).1, rfl, rfl, ?_, ?_⟩
  · norm_num [flicker, burn, fresh, draws0]
  · norm_num [flicker, burn, fresh, draws1]

/-- C17: `update` of a NORMAL block returns the sector unchanged, whatever the
animation reports; `update` of a BURNING or DISINTEGRATING block whose
animation is not done leaves the block's state, collision group, removal flag
and sprite (file, action and loops), every other block and the played sounds
unchanged. -/
theorem C17_update_waits_for_animation (s : Sector) (this : Nat) (wb : WeakBlock)
    (rnd : Draws) (ad : Bool) (h : s.block this = some wb) :
    (wb.state = State.STATE_NORMAL → update this rnd ad s = s)
      ∧ (wb.state = State.STATE_BURNING ∨ wb.state = State.STATE_DISINTEGRATING →
          (∃ wb', (update this rnd false s).block this = some wb'
              ∧ wb'.state = wb.state ∧ wb'.group = wb.group ∧ wb'.removed = wb.removed
              ∧ wb'.sprite = wb.sprite)
            ∧ (∀ j, j ≠ this → (update this rnd false s).block j = s.block j)
            ∧ (update this rnd false s).played = s.played) := by
  refine ⟨fun hs => update_normal this rnd ad s wb h hs, ?_⟩
  rintro (hs | hs)
  · rw [update_burning_not_done this rnd s wb h hs]
    refine ⟨⟨flicker wb rnd, block_set_block_self s this _ wb h, flicker_state wb rnd,
      flicker_group wb rnd, flicker_removed wb rnd, flicker_sprite wb rnd⟩, ?_, rfl⟩
    intro j hj
    exact block_set_block_ne s this j _ (fun e => hj e.symm)
  · rw [update_disintegrating_not_done this rnd s wb h hs]
    exact ⟨⟨wb, h, rfl, rfl, rfl, rfl⟩, fun _ _ => rfl, rfl⟩

/-- An update of the NORMAL first block of `two_straw` changes nothing, and an
update of the burning block of `melt_pair` whose animation is not done leaves
its neighbour and the sound log alone. -/
theorem C17_update_waits_for_animation_witness :
    update 0 draws0 true two_straw = two_straw
      ∧ (update 0 draws0 false melt_pair).block 1 = melt_pair.block 1
      ∧ (update 0 draws0 false melt_pair).played = melt_pair.played :=
  have h := (C17_update_waits_for_animation melt_pair 0 (burn (fresh meltbox false 0 0))
    draws0 false rfl).2 (Or.inl rfl)
  ⟨(C17_update_waits_for_animation two_straw 0 (fresh strawbox true 0 0) draws0 true rfl).1
    rfl, h.2.1 1 (by decide), h.2.2⟩

/-- C18: for every block state, sprite and `linked` flag, every bullet and every
hit, `collision` called with the bullet returns what `collision_bullet` returns:
the same response, the same sector (the block and its siblings) and the same
bullet (removed, ricocheted or untouched). -/
theorem C18_collision_agrees_with_collision_bullet (this : Nat) (bullet : Bullet)
    (hit : CollisionHit) (s : Sector) :
    collision this (GameObject.bullet bullet) hit s
      = ((collision_bullet this bullet hit s).1, (collision_bullet this bullet hit s).2.1,
          GameObject.bullet (collision_bullet this bullet hit s).2.2) := by
  cases h : s.block this with
  | none => simp [collision, collision_bullet, h]
  | some wb =>
    by_cases hs : wb.state = State.STATE_NORMAL
    · exact collision_bullet_normal this bullet hit s wb h hs
    · rw [collision_not_badguy_not_normal this _ hit s wb h hs (fun g e => by cases e),
        collision_bullet_not_normal this bullet hit s wb h hs]

/-- C19: a block constructed from a configuration that contains `linked = false`
is unlinked and has the meltbox sprite, whatever sprite the configuration
names; a block constructed from a configuration in which `linked` is absent or
true is linked and has the configured sprite name, the strawbox one when none
is configured; and every constructed block is NORMAL. -/
theorem C19_construction_couples_linked_and_sprite (lisp : ReaderMapping)
    (light : LightSprite) :
    (lisp.linked = some false →
        (WeakBlock.construct lisp light).1.sprite_name = meltbox
          ∧ (WeakBlock.construct lisp light).1.sprite.file = meltbox
          ∧ (WeakBlock.construct lisp light).1.linked = false)
      ∧ (lisp.linked = none ∨ lisp.linked = some true →
          (WeakBlock.construct lisp light).1.linked = true
            ∧ (WeakBlock.construct lisp light).1.sprite_name = lisp.sprite.getD strawbox)
      ∧ (WeakBlock.construct lisp light).1.state = State.STATE_NORMAL := by
  refine ⟨?_, ?_, construct_state lisp light⟩
  · intro h
    simp only [WeakBlock.construct, h]
    split_ifs <;> exact ⟨rfl, rfl, rfl⟩
  · intro h
    refine ⟨?_, construct_sprite_name_kept lisp light
      (by rcases h with h | h <;> rw [h] <;> decide)⟩
    rcases h with h | h
    · simp only [WeakBlock.construct, h]
      split_ifs <;> rfl
    · simp only [WeakBlock.construct, h]
      split_ifs <;> rfl

/-- A configuration that names the strawbox sprite with `linked = false` gives an
unlinked meltbox; the empty configuration gives a linked strawbox; a
configuration that names `custom_sprite` gives a linked block with that
sprite. -/
theorem C19_construction_couples_linked_and_sprite_witness :
    (WeakBlock.construct unlinked_straw_config plain_light).1.sprite_name = meltbox
      ∧ (WeakBlock.construct unlinked_straw_config plain_light).1.linked = false
      ∧ (WeakBlock.construct empty_config plain_light).1.linked = true
      ∧ (WeakBlock.construct empty_config plain_light).1.sprite_name = strawbox
      ∧ (WeakBlock.construct custom_config plain_light).1.sprite_name = custom_sprite :=
  have h1 := (C19_construction_couples_linked_and_sprite unlinked_straw_config
    plain_light).1 rfl
  have h2 := (C19_construction_couples_linked_and_sprite empty_config plain_light).2.1
    (Or.inl rfl)
  have h3 := (C19_construction_couples_linked_and_sprite custom_config plain_light).2.1
    (Or.inl rfl)
  ⟨h1.1, h1.2.2, h2.1, h2.2, h3.2⟩

/-- C20: when a second listing of the sector holds the same blocks under a
renumbering `σ` of the indices (the listings are permutations of one another),
`spreadHit` on block A under the second listing leaves at every renumbered
index exactly the block that `spreadHit` on A under the first listing leaves at
the original index. -/
theorem C20_spreadHit_order_independent (s1 s2 : Sector) (σ : Nat → Nat) (a k : Nat)
    (A b : WeakBlock) (hinj : Function.Injective σ)
    (hperm : ∀ n, s2.block (σ n) = s1.block n)
    (hA : s1.block a = some A) (hb : s1.block k = some b) :
    (spreadHit (σ a) s2).block (σ k) = (spreadHit a s1).block k := by
  have hA2 : s2.block (σ a) = some A := by rw [hperm a, hA]
  have hb2 : s2.block (σ k) = some b := by rw [hperm k, hb]
  rw [spreadHit_block (σ a) (σ k) s2 A b hA2 hb2, spreadHit_block a k s1 A b hA hb]
  by_cases c : A.linked = true ∧ k ≠ a ∧ b.state = State.STATE_NORMAL ∧ near A b
  · have c2 : A.linked = true ∧ σ k ≠ σ a ∧ b.state = State.STATE_NORMAL ∧ near A b :=
      ⟨c.1, fun e => c.2.1 (hinj e), c.2.2⟩
    rw [if_pos c, if_pos c2]
  · have c2 : ¬ (A.linked = true ∧ σ k ≠ σ a ∧ b.state = State.STATE_NORMAL ∧ near A b) :=
      fun d => c ⟨d.1, fun e => d.2.1 (congrArg σ e), d.2.2⟩
    rw [if_neg c, if_neg c2]

theorem swap01_injective : Function.Injective swap01 := by
  intro m n h
  unfold swap01 at h
  split_ifs at h <;> omega

theorem quad_swapped_block (n : Nat) : quad_swapped.block (swap01 n) = quad.block n := by
  match n with
  | 0 => rfl
  | 1 => rfl
  | n + 2 => simp [swap01, quad, quad_swapped, Sector.block]

/-- With the first two blocks of `quad` exchanged, the scan from the same block
(now listed second) leaves the same blocks: the meltbox (now listed first) is
ignited as it is under the original listing. -/
theorem C20_spreadHit_order_independent_witness :
    (spreadHit 1 quad_swapped).block 0 = (spreadHit 0 quad).block 1
      ∧ (spreadHit 1 quad_swapped).block 2 = (spreadHit 0 quad).block 2 :=
  ⟨C20_spreadHit_order_independent quad quad_swapped swap01 0 1 (fresh strawbox true 0 0)
      (fresh meltbox false (65 / 2) (65 / 2)) swap01_injective quad_swapped_block rfl rfl,
    C20_spreadHit_order_independent quad quad_swapped swap01 0 2 (fresh strawbox true 0 0)
      (fresh strawbox true 33 0) swap01_injective quad_swapped_block rfl rfl⟩

end Supertux
